import Mathlib

/-!
Verification development for the `power_pnl` symbolic optimization core.

The Python source (src/power_pnl) builds a Lagrangian from a symbolic model,
derives gradient and Hessian, classifies convexity over a sampled domain,
solves the stationarity system (closed form when the gradient is affine,
Newton-Raphson otherwise) and checks the KKT conditions on a candidate
solution.  This file gives a shallow embedding of those operations and proves
the specification claims about them.

Modelling decisions (documented next to each definition):
* sympy expressions are embedded as the inductive `PowerPnl.Expr` over `ℚ` with
  variables named by `String` (the source drives several dispatches off the
  textual variable names, so names are part of the model);
* opaque non-polynomial sub-expressions (sympy functions such as `sin`, whose
  numeric evaluation may fail with the exceptions the source catches) are the
  constructor `Expr.fun_` indexed by a code; their meaning is a parameter
  (`FTot` for contexts where the source assumes evaluation succeeds, `FNum`
  for the convexity sampler where the source catches evaluation exceptions);
* machine floats of the source are modelled as exact rationals.
-/

namespace PowerPnl

/-- Interpretation of the opaque function symbols when evaluation is assumed
to succeed (solver and KKT paths, where the source does not catch
evaluation exceptions). -/
def FTot : Type := ℕ → ℚ → ℚ

/-- Interpretation of the opaque function symbols for the convexity sampler:
`none` models a numeric-evaluation failure (`TypeError`, `ZeroDivisionError`,
complex value, ...) that the source catches per sampled point. -/
def FNum : Type := ℕ → ℚ → Option ℚ

/-- Shallow embedding of the sympy expressions the engine manipulates:
constants, named symbols, sums, differences, negation, products, natural
powers, and opaque unary function applications `fun_ i`. -/
inductive Expr where
  | const : ℚ → Expr
  | var : String → Expr
  | add : Expr → Expr → Expr
  | sub : Expr → Expr → Expr
  | neg : Expr → Expr
  | mul : Expr → Expr → Expr
  | pow : Expr → ℕ → Expr
  | fun_ : ℕ → Expr → Expr
  deriving DecidableEq, Repr

/-- Total evaluation of an expression under an environment, interpreting the
opaque function symbols through `I`.  Models `expr.evalf(subs=env)` in
contexts where the source assumes a numeric result. -/
def evalT (I : FTot) (env : String → ℚ) : Expr → ℚ
  | .const c => c
  | .var v => env v
  | .add a b => evalT I env a + evalT I env b
  | .sub a b => evalT I env a - evalT I env b
  | .neg a => -(evalT I env a)
  | .mul a b => evalT I env a * evalT I env b
  | .pow a n => (evalT I env a) ^ n
  | .fun_ i a => I i (evalT I env a)

/-- Partial evaluation: `none` models the evaluation exceptions
(`TypeError`, `ValueError`, `ZeroDivisionError`, `FloatingPointError`,
`SympifyError`) that `ConvexityAnalyzer` catches at each sampled point. -/
def evalN (J : FNum) (env : String → ℚ) : Expr → Option ℚ
  | .const c => some c
  | .var v => some (env v)
  | .add a b => do pure ((← evalN J env a) + (← evalN J env b))
  | .sub a b => do pure ((← evalN J env a) - (← evalN J env b))
  | .neg a => do pure (-(← evalN J env a))
  | .mul a b => do pure ((← evalN J env a) * (← evalN J env b))
  | .pow a n => do pure ((← evalN J env a) ^ n)
  | .fun_ i a => do (J i (← evalN J env a))

/-- Symbolic partial derivative, modelling `sympy.diff`.  The derivative of
the opaque function `fun_ i` is modelled as the opaque function `fun_ (i+1)`
composed with the chain rule (sympy would produce `f'`; the indexing shift
is the embedding's name for that derivative). -/
def deriv : Expr → String → Expr
  | .const _, _ => .const 0
  | .var v, w => if v = w then .const 1 else .const 0
  | .add a b, w => .add (deriv a w) (deriv b w)
  | .sub a b, w => .sub (deriv a w) (deriv b w)
  | .neg a, w => .neg (deriv a w)
  | .mul a b, w => .add (.mul (deriv a w) b) (.mul a (deriv b w))
  | .pow a n, w =>
    match n with
    | 0 => .const 0
    | m + 1 => .mul (.mul (.const (m + 1)) (.pow a m)) (deriv a w)
  | .fun_ i a, w => .mul (.fun_ (i + 1) a) (deriv a w)

/-- Free symbols of an expression, with duplicates, modelling
`expr.free_symbols` (the source only asks for the set's size and sole
element, so a deduplicated list is taken where needed). -/
def freeVars : Expr → List String
  | .const _ => []
  | .var v => [v]
  | .add a b => freeVars a ++ freeVars b
  | .sub a b => freeVars a ++ freeVars b
  | .neg a => freeVars a
  | .mul a b => freeVars a ++ freeVars b
  | .pow a _ => freeVars a
  | .fun_ _ a => freeVars a

/-- Deduplicated free symbols (models the `set` of `expr.free_symbols`). -/
def freeVarSet (e : Expr) : List String := (freeVars e).dedup

/-- Syntactic total degree of an expression viewed as a polynomial in all of
its symbols; `none` models a failed polynomial decomposition
(`expr.as_poly(...)` returning `None` or raising `PolynomialError`), which
happens exactly when an opaque function application is present.  This is the
embedding of the substrate's polynomial decomposition used by the solver's
linearity test; it does not simplify, so it may over-estimate the degree of
expressions with cancelling terms. -/
def polyDegree : Expr → Option ℕ
  | .const _ => some 0
  | .var _ => some 1
  | .add a b => do pure (max (← polyDegree a) (← polyDegree b))
  | .sub a b => do pure (max (← polyDegree a) (← polyDegree b))
  | .neg a => polyDegree a
  | .mul a b => do pure ((← polyDegree a) + (← polyDegree b))
  | .pow a n => do pure ((← polyDegree a) * n)
  | .fun_ _ _ => none


/-- `needle` occurs as a contiguous run at the head of `hay` (helper for the
substring test below). -/
def charsLeading : List Char → List Char → Bool
  | [], _ => true
  | _ :: _, [] => false
  | a :: as, b :: bs => a = b && charsLeading as bs

/-- `needle` occurs somewhere inside `hay` as a contiguous run. -/
def charsContain (hay needle : List Char) : Bool :=
  match hay with
  | [] => needle.isEmpty
  | _ :: t => charsLeading needle hay || charsContain t needle

/-- Python's substring containment `needle in hay` on variable names. -/
def strContains (hay needle : String) : Bool :=
  charsContain hay.data needle.data


/-- Decimal digit character. -/
def digitChar (d : ℕ) : Char :=
  if d = 0 then '0' else if d = 1 then '1' else if d = 2 then '2'
  else if d = 3 then '3' else if d = 4 then '4' else if d = 5 then '5'
  else if d = 6 then '6' else if d = 7 then '7' else if d = 8 then '8'
  else '9'

/-- Decimal digits of `n`, fuel-structured so the kernel can evaluate it. -/
def natStrAux : ℕ → ℕ → List Char
  | 0, _ => []
  | fuel + 1, n =>
    if n < 10 then [digitChar n]
    else natStrAux fuel (n / 10) ++ [digitChar (n % 10)]

/-- Decimal rendering of a natural number. -/
def natStr (n : ℕ) : String := ⟨natStrAux (n + 1) n⟩

/-- Rendering of a rational diagnostic value. -/
def ratStr (q : ℚ) : String :=
  (if q < 0 then "-" else "") ++ natStr q.num.natAbs ++ "/" ++ natStr q.den

/-- First value bound to `k` in an association list (Python dict lookup,
`dict.get`). -/
def lookupA {α : Type} (m : List (String × α)) (k : String) : Option α :=
  match m with
  | [] => none
  | (k', v) :: t => if k' = k then some v else lookupA t k

/-- Rebind `k` to `v`: replaces the first binding of `k`, or appends one
(Python's `dict[k] = v`). -/
def updA {α : Type} (m : List (String × α)) (k : String) (v : α) :
    List (String × α) :=
  match m with
  | [] => [(k, v)]
  | (k', v') :: t => if k' = k then (k, v) :: t else (k', v') :: updA t k v

theorem lookupA_updA_self {α : Type} (m : List (String × α)) (k : String)
    (v : α) : lookupA (updA m k v) k = some v := by
  induction m with
  | nil => simp [updA, lookupA]
  | cons h t ih =>
    by_cases hk : h.1 = k
    · simp [updA, hk, lookupA]
    · simp [updA, hk, lookupA, ih]

theorem lookupA_updA_other {α : Type} (m : List (String × α)) (k w : String)
    (v : α) (hw : w ≠ k) : lookupA (updA m k v) w = lookupA m w := by
  have hkw : ¬(k = w) := fun h => hw h.symm
  induction m with
  | nil => simp [updA, lookupA, hkw]
  | cons p t ih =>
    obtain ⟨a, b⟩ := p
    by_cases hk : a = k
    · subst hk
      simp [updA, lookupA, hkw]
    · simp only [updA, if_neg hk, lookupA]
      by_cases hw' : a = w <;> simp [hw', ih]

/-! ### Exact rational linear algebra

The source delegates determinants, ranks and inverses to sympy's exact
rational-matrix routines; they are modelled here by standard exact algorithms
on `List (List ℚ)` (row-major). -/

/-- Entry `(i, j)` of a row-major matrix, `0` outside the stored shape. -/
def entry (m : List (List ℚ)) (i j : ℕ) : ℚ := (m.getD i []).getD j 0

/-- Drop column `j` from a row. -/
def dropCol (j : ℕ) (row : List ℚ) : List ℚ := row.eraseIdx j

/-- Determinant by Laplace expansion along the first row (exact, models
sympy's exact determinant of a rational matrix). -/
def detL : List (List ℚ) → ℚ
  | [] => 1
  | r :: rs =>
    (r.enum.map (fun p =>
      (-1 : ℚ) ^ p.1 * p.2 * detL (rs.map (dropCol p.1)))).sum
termination_by m => m.length
decreasing_by simp [List.length_map, Nat.lt_succ_self]

/-- Minor obtained by deleting row `i` and column `j`. -/
def minorM (m : List (List ℚ)) (i j : ℕ) : List (List ℚ) :=
  (m.eraseIdx i).map (dropCol j)

/-- Inverse of an `n × n` rational matrix through the adjugate formula,
`none` when the determinant vanishes (models sympy's `Matrix.inv`, which
raises on a singular matrix). -/
def matInv (m : List (List ℚ)) : Option (List (List ℚ)) :=
  let d := detL m
  let n := m.length
  if d = 0 then none
  else some ((List.range n).map (fun i =>
    (List.range n).map (fun j =>
      (-1 : ℚ) ^ (i + j) * detL (minorM m j i) / d)))

/-- Matrix–vector product. -/
def matVec (m : List (List ℚ)) (v : List ℚ) : List ℚ :=
  m.map (fun row => ((row.zip v).map (fun p => p.1 * p.2)).sum)

/-- Row rank by elimination: the first nonzero row contributes one to the
rank after its leading column is cleared from the remaining rows (models
sympy's exact `Matrix.rank`). -/
def rankQ : List (List ℚ) → ℕ
  | [] => 0
  | r :: rs =>
    match r.findIdx? (fun a => decide (a ≠ 0)) with
    | none => rankQ rs
    | some j =>
      1 + rankQ (rs.map (fun row =>
        (row.zip r).map (fun p => p.1 - (row.getD j 0 / r.getD j 0) * p.2)))
termination_by m => m.length
decreasing_by all_goals simp [List.length_map, Nat.lt_succ_self]

/-- Leading `k × k` block of a matrix (for principal minors). -/
def leadBlock (k : ℕ) (m : List (List ℚ)) : List (List ℚ) :=
  (m.take k).map (fun row => row.take k)

/-- Transpose of a rectangular list matrix (models `zip(*resultados)`:
column `j` of the input becomes row `j` of the output). -/
def transposeQ (cols : ℕ) (m : List (List ℚ)) : List (List ℚ) :=
  (List.range cols).map (fun j => m.map (fun row => row.getD j 0))

/-! ### Model container (`power_pnl.models`) -/

/-- Objective mode, `models.objective` / `interface.model`: the builder
receives `min`, `max` or `auto` (only `max` flips the objective's sign). -/
inductive Mode where
  | min | max | auto
  deriving DecidableEq, Repr

/-- `VariableSet` (src/power_pnl/models/variables.py): the decision symbols
`x`, equality multipliers `lmd`, inequality multipliers `pi_up` / `pi_dn`
and the shared slack pool `s`, each an ordered list of symbol names. -/
structure VariableSet where
  x : List String
  lmd : List String
  pi_up : List String
  pi_dn : List String
  s : List String
  deriving DecidableEq, Repr

/-- `VariableSet.all_symbols`: decision variables, then `lmd`, `pi_up`,
`pi_dn`, `s`, in that order. -/
def VariableSet.all_symbols (v : VariableSet) : List String :=
  v.x ++ v.lmd ++ v.pi_up ++ v.pi_dn ++ v.s

/-- Symbol names generated by `sp.symbols('p1:n+1')`: `p1`, ..., `pn`. -/
def symRange (p : String) (n : ℕ) : List String :=
  (List.range n).map (fun i => p ++ natStr (i + 1))

/-- `VariableSet.__init__`: names `x1..`, `lambda1..`, `pi_up1..`,
`pi_dn1..` and a slack pool of size `n_ineq_up + n_ineq_dn`. -/
def VariableSet.mkNamed (nDec nEq nUp nDn : ℕ) : VariableSet where
  x := symRange "x" nDec
  lmd := symRange "lambda" nEq
  pi_up := symRange "pi_up" nUp
  pi_dn := symRange "pi_dn" nDn
  s := symRange "s" (nUp + nDn)

/-- `ConstraintSet` (src/power_pnl/models/constraints.py): ordered
equalities `h(x) = 0` and inequalities `(g(x), bound)` for `g ≤ bound`
(`inequalities_up`) and `g ≥ bound` (`inequalities_dn`). -/
structure ConstraintSet where
  equalities : List Expr
  inequalities_up : List (Expr × ℚ)
  inequalities_dn : List (Expr × ℚ)
  deriving DecidableEq, Repr

/-- The built symbolic model handed to the solver (`SymbolicModel.build`):
objective expression, mode, variables and constraints. -/
structure BuiltModel where
  objective : Expr
  mode : Mode
  vars : VariableSet
  constraints : ConstraintSet
  deriving DecidableEq, Repr

/-! ### LagrangianBuilder (src/power_pnl/engine/lagrangian.py) -/

/-- Residual entering the Lagrangian for the `j`-th upper inequality:
`g - bound + s_j²` (the source's `expr = g - bound + s_j**2`). -/
def upResidual (g : Expr) (bound : ℚ) (sj : String) : Expr :=
  .add (.sub g (.const bound)) (.pow (.var sj) 2)

/-- Residual entering the Lagrangian for the `k`-th lower inequality:
`g - bound - s_{|up|+k}²`. -/
def dnResidual (g : Expr) (bound : ℚ) (sk : String) : Expr :=
  .sub (.sub g (.const bound)) (.pow (.var sk) 2)

/-- `LagrangianBuilder._construir_lagrangeana`: starts from `f` (negated when
the mode is `max`), subtracts `λ_i·h_i` for each equality, then adds the
signed multiplier terms of the inequalities.  The source's
`l += sinal * pi * expr` is rendered as an `add` when the sign is `+1` and a
`sub` when it is `-1` (matching sympy's `Add(l, Mul(-1, π, expr))`); list
indexing (`self.vars.lmd[i]`, `self.vars.s[len(up)+k]`) is rendered with
`getD`, total on the source's invariant that the variable pools are large
enough. -/
def construirLagrangeana (obj : Expr) (vars' : VariableSet)
    (cs : ConstraintSet) (mode : Mode) : Expr :=
  let l0 : Expr := if mode = .max then .neg obj else obj
  let l1 := cs.equalities.enum.foldl
    (fun l p => .sub l (.mul (.var (vars'.lmd.getD p.1 "lambda?")) p.2)) l0
  let l2 := cs.inequalities_up.enum.foldl
    (fun l p =>
      if mode = .min then
        .add l (.mul (.var (vars'.pi_up.getD p.1 "pi_up?"))
          (upResidual p.2.1 p.2.2 (vars'.s.getD p.1 "s?")))
      else
        .sub l (.mul (.var (vars'.pi_up.getD p.1 "pi_up?"))
          (upResidual p.2.1 p.2.2 (vars'.s.getD p.1 "s?")))) l1
  cs.inequalities_dn.enum.foldl
    (fun l p =>
      if mode = .min then
        .sub l (.mul (.var (vars'.pi_dn.getD p.1 "pi_dn?"))
          (dnResidual p.2.1 p.2.2
            (vars'.s.getD (cs.inequalities_up.length + p.1) "s?")))
      else
        .add l (.mul (.var (vars'.pi_dn.getD p.1 "pi_dn?"))
          (dnResidual p.2.1 p.2.2
            (vars'.s.getD (cs.inequalities_up.length + p.1) "s?")))) l2

/-! ### ConvexityAnalyzer (src/power_pnl/engine/convexity.py) -/

/-- Evaluation of one expression at one sampled point, modelling
`float(expr.evalf(subs=binds))` inside the analyzer's `try`: it fails (and
the point is skipped) when a symbol is left unbound by `binds` (the float
conversion of a still-symbolic value raises `TypeError`) or when the opaque
functions fail numerically. -/
def evalAt (J : FNum) (e : Expr) (binds : List (String × ℚ)) : Option ℚ :=
  if (freeVars e).all (fun w => (lookupA binds w).isSome) then
    evalN J (fun w => (lookupA binds w).getD 0) e
  else none

/-- Entry `(i, j)` of a symbolic Hessian given as rows. -/
def hessEntry (hess : List (List Expr)) (i j : ℕ) : Expr :=
  (hess.getD i []).getD j (.const 0)

/-- Domain specification for the analyzer: an explicit point list, a global
`(min, max)` tuple, or a global `(min, max, step)` tuple.  (The source also
accepts a per-variable dict of ranges; no claim exercises it and it is not
modelled.) -/
inductive Dominio where
  | pontos (ps : List (List ℚ))
  | faixa (a b : ℚ)
  | faixaPasso (a b passo : ℚ)
  deriving DecidableEq, Repr

/-- `np.linspace(a, b, 5)`. -/
def linspace5 (a b : ℚ) : List ℚ :=
  (List.range 5).map (fun i => a + (b - a) * i / 4)

/-- `np.arange(start, stop, step)` for a positive step (exact rationals). -/
def arangeQ (start stop step : ℚ) : List ℚ :=
  if step ≤ 0 then []
  else (List.range (Int.toNat ⌈(stop - start) / step⌉)).map
    (fun i => start + step * i)

/-- `itertools.product(*[grid] * n)`: all `n`-tuples over `grid`, leftmost
coordinate varying slowest. -/
def cartPow (grid : List ℚ) : ℕ → List (List ℚ)
  | 0 => [[]]
  | n + 1 => grid.flatMap (fun g => (cartPow grid n).map (fun t => g :: t))

/-- `ConvexityAnalyzer._gerar_pontos`: point lists are validated against the
variable count; range tuples are expanded to a grid (5-point `linspace` or
stepped `arange`) and raised to the `n`-fold product. -/
def gerarPontos (d : Dominio) (nvars : ℕ) : Except String (List (List ℚ)) :=
  match d with
  | .pontos ps =>
    if ps.all (fun p => p.length = nvars) then .ok ps
    else .error "Pontos mal formatados."
  | .faixa a b => .ok (cartPow (linspace5 a b) nvars)
  | .faixaPasso a b passo => .ok (cartPow (arangeQ a (b + passo) passo) nvars)

/-- `abs(v) < 1e-10`, the analyzer's approximate-zero test. -/
def approxZero (v : ℚ) : Bool := decide (|v| < 1 / 10 ^ 10)

/-- All values `> 0` (`_all_pos`). -/
def allPos (l : List ℚ) : Bool := l.all (fun v => decide (0 < v))

/-- All values `≥ 0` (`_all_nonneg`). -/
def allNonneg (l : List ℚ) : Bool := l.all (fun v => decide (0 ≤ v))

/-- All values `< 0` (`_all_neg`). -/
def allNeg (l : List ℚ) : Bool := l.all (fun v => decide (v < 0))

/-- All values `≤ 0` (`_all_nonpos`). -/
def allNonpos (l : List ℚ) : Bool := l.all (fun v => decide (v ≤ 0))

/-- All values approximately zero (`_all_zero`). -/
def allZero (l : List ℚ) : Bool := l.all approxZero

/-- Some value `< 0` (`_any_negative`). -/
def anyNegative (l : List ℚ) : Bool := l.any (fun v => decide (v < 0))

/-- `_alternancia_concava`: `(v ≤ 0 if i % 2 == 0 else v ≥ 0)` where `i`
enumerates the list handed in. -/
def altConcava (l : List ℚ) : Bool :=
  l.enum.all (fun p => if p.1 % 2 = 0 then decide (p.2 ≤ 0) else decide (0 ≤ p.2))

/-- `_alternancia_estr_concava`: the strict variant. -/
def altEstrConcava (l : List ℚ) : Bool :=
  l.enum.all (fun p => if p.1 % 2 = 0 then decide (p.2 < 0) else decide (0 < p.2))

/-- `ConvexityAnalyzer._classificar_valores_1d`, with the source's exact
branch order: emptiness, `all > 0`, `all ≥ 0`, `all < 0`, `all ≤ 0`,
`all ≈ 0`, mixed. -/
def classificarValores1d (valores : List ℚ) : String :=
  if valores.isEmpty then "indeterminado"
  else if allPos valores then "estritamente convexa"
  else if allNonneg valores then "convexa"
  else if allNeg valores then "estritamente côncava"
  else if allNonpos valores then "côncava"
  else if allZero valores then "linear"
  else "nem convexa nem côncava"

/-- `ConvexityAnalyzer._convexidade_1d`: with sampled points, evaluate the
scalar second derivative at each, skipping points whose numeric evaluation
fails, and classify the surviving values; with no points, classify the
constant second derivative if it is a number (an `.error` models the
uncaught `float()` failure there), else report neither. -/
def convexidade1d (J : FNum) (hess : List (List Expr)) (vars' : List String)
    (pontos : List (List ℚ)) : Except String String :=
  let deriv2 := hessEntry hess 0 0
  let var := vars'.getD 0 ""
  if !pontos.isEmpty then
    .ok (classificarValores1d
      (pontos.filterMap (fun p => evalAt J deriv2 [(var, p.headD 0)])))
  else if (freeVars deriv2).isEmpty then
    match evalAt J deriv2 [] with
    | some v => .ok (classificarValores1d [v])
    | none => .error "float() em valor não numérico"
  else .ok "nem convexa nem côncava"

/-- Per-point evaluation of `_convexidade_2d` (the body of its `try`). -/
def avaliarPonto2d (J : FNum) (hess : List (List Expr)) (x1 x2 : String)
    (p : List ℚ) : Option (ℚ × ℚ × ℚ) := do
  let binds := [(x1, p.getD 0 0), (x2, p.getD 1 0)]
  let h11 ← evalAt J (hessEntry hess 0 0) binds
  let h22 ← evalAt J (hessEntry hess 1 1) binds
  let e01 ← evalAt J (hessEntry hess 0 1) binds
  let e10 ← evalAt J (hessEntry hess 1 0) binds
  pure (h11, h22, h11 * h22 - e01 * e10)

/-- `ConvexityAnalyzer._convexidade_2d`: per sampled point, `h11`, `h22` and
`det(H)` are evaluated (a failure skips the point); the surviving triples
are classified by the source's 2×2 leading-minor tests in order. -/
def convexidade2d (J : FNum) (hess : List (List Expr)) (vars' : List String)
    (pontos : List (List ℚ)) : String :=
  let x1 := vars'.getD 0 ""
  let x2 := vars'.getD 1 ""
  let resultados : List (ℚ × ℚ × ℚ) :=
    pontos.filterMap (avaliarPonto2d J hess x1 x2)
  if resultados.isEmpty then "indeterminado"
  else
    let h11s := resultados.map (fun t => t.1)
    let h22s := resultados.map (fun t => t.2.1)
    let dets := resultados.map (fun t => t.2.2)
    if allZero h11s && allZero h22s && allZero dets then "linear"
    else if anyNegative dets then "nem convexa nem côncava"
    else if allPos h11s && allPos h22s && allNonneg dets then
      "estritamente convexa"
    else if allNonneg h11s && allNonneg h22s && allNonneg dets then "convexa"
    else if allNeg h11s && allNeg h22s && dets.all (fun d => decide (0 < d))
      then "estritamente côncava"
    else if allNonpos h11s && allNonpos h22s && allNonneg dets then "côncava"
    else "nem convexa nem côncava"

/-- `ConvexityAnalyzer._convexidade_nd`: per sampled point, the ordered
leading principal minors of the evaluated Hessian (any entry failure skips
the point, as the exception aborts the whole minor list); surviving rows are
transposed and classified columnwise — including the source's alternation
tests, which enumerate sample points within each column. -/
def convexidadeNd (J : FNum) (hess : List (List Expr)) (vars' : List String)
    (pontos : List (List ℚ)) : String :=
  let n := vars'.length
  let resultados : List (List ℚ) := pontos.filterMap (fun ponto => do
    let binds := vars'.zip ponto
    let rows ← (List.range n).mapM (fun i =>
      (List.range n).mapM (fun j => evalAt J (hessEntry hess i j) binds))
    pure ((List.range n).map (fun k => detL (leadBlock (k + 1) rows))))
  if resultados.isEmpty then "indeterminado"
  else
    let colunas := transposeQ n resultados
    if colunas.all allZero then "linear"
    else if colunas.all allPos then "estritamente convexa"
    else if colunas.all allNonneg then "convexa"
    else if colunas.all altEstrConcava then "estritamente côncava"
    else if colunas.all altConcava then "côncava"
    else "nem convexa nem côncava"

/-- `ConvexityAnalyzer` as a function: `__init__` generates the points from
the domain (raising on a malformed one) and `classificar` dispatches on the
number of variables. -/
def classificar (J : FNum) (hess : List (List Expr)) (vars' : List String)
    (dominio : Option Dominio) : Except String String := do
  let pontos ← match dominio with
    | none => pure []
    | some d => gerarPontos d vars'.length
  if vars'.length = 1 then convexidade1d J hess vars' pontos
  else if vars'.length = 2 then pure (convexidade2d J hess vars' pontos)
  else pure (convexidadeNd J hess vars' pontos)

/-! ### SymbolicSolver (src/power_pnl/solver/solver.py) -/

/-- External sympy capabilities the solver consumes, kept abstract:
`ap` interprets the opaque functions numerically (solver and KKT paths),
`apN` is the failure-aware interpretation (convexity sampling),
`eigClass` is the eigenvalue-based diagnostic line printed for an
indefinite Lagrangian at a converged point (`Matrix.eigenvals` plus sign
inspection), and `solveVar` is `sympy.solve(expr, var)[0]`, used only
inside a KKT diagnostic message. -/
structure Substrate where
  ap : FTot
  apN : FNum
  eigClass : List (List ℚ) → String
  solveVar : Expr → String → ℚ

/-- The forms `SymbolicSolver` accepts for `x0`: a symbol-keyed dict, a
name-keyed dict, a scalar, an ordered list, or anything else (including
`None` and mixed-key dicts), which leaves the base guess empty.  Symbols
are names in this embedding, so both dict forms carry name/value pairs;
they differ in how the base guess is assembled, exactly as in the source. -/
inductive X0 where
  | dictSym (m : List (String × ℚ))
  | dictStr (m : List (String × ℚ))
  | escalar (c : ℚ)
  | lista (l : List ℚ)
  | outro
  deriving DecidableEq, Repr

/-- The role-named default of `_preparar_chute`'s fill loop: each branch
(slack, inequality multiplier, equality multiplier, other) yields `0.1`. -/
def heurDefault (nome : String) : ℚ :=
  if nome.startsWith "s" then 1 / 10
  else if nome.startsWith "pi_up" || nome.startsWith "pi_dn" then 1 / 10
  else if nome.startsWith "lambda" then 1 / 10
  else 1 / 10

/-- The base guess before the fill loop: `x0.copy()` for a symbol-keyed
dict, a per-variable `x0.get(str(var), None)` for a name-keyed dict, a
broadcast scalar, a zipped list of matching length, and `{}` otherwise. -/
def chuteBase (x0 : X0) (variaveis : List String) :
    List (String × Option ℚ) :=
  match x0 with
  | .dictSym m => m.map (fun kv => (kv.1, some kv.2))
  | .dictStr m => variaveis.map (fun v => (v, lookupA m v))
  | .escalar c => variaveis.map (fun v => (v, some c))
  | .lista l =>
    if l.length = variaveis.length then
      (variaveis.zip l).map (fun p => (p.1, some p.2))
    else []
  | .outro => []

/-- One step of `_preparar_chute`'s fill loop: a model variable that is
absent or bound to `None` receives the role default. -/
def passoPreencher (ch : List (String × Option ℚ)) (v : String) :
    List (String × Option ℚ) :=
  match lookupA ch v with
  | some (some _) => ch
  | _ => updA ch v (some (heurDefault v))

/-- The fill loop of `_preparar_chute`. -/
def preencher (variaveis : List String) (chute : List (String × Option ℚ)) :
    List (String × Option ℚ) :=
  variaveis.foldl passoPreencher chute

/-- `SymbolicSolver._preparar_chute`. -/
def prepararChute (x0 : X0) (variaveis : List String) :
    List (String × Option ℚ) :=
  preencher variaveis (chuteBase x0 variaveis)

/-- The prepared guess with the `Option` layer stripped; after the fill
loop every model variable is bound to a value, so nothing relevant is
dropped. -/
def chuteValores (x0 : X0) (variaveis : List String) : List (String × ℚ) :=
  (prepararChute x0 variaveis).filterMap
    (fun kv => kv.2.map (fun q => (kv.1, q)))

/-- `SymbolicSolver._sistema_linear`: every gradient component must admit a
polynomial decomposition of total degree at most 1; a failed decomposition
(`None` result or `PolynomialError`) yields `False`, not an error. -/
def sistemaLinear (grad : List Expr) : Bool :=
  grad.all (fun e =>
    match polyDegree e with
    | some d => decide (d ≤ 1)
    | none => false)

/-- Interpretation used while extracting linear coefficients; the solver
only reaches the linear path with `fun_`-free gradients, so the choice is
irrelevant there. -/
def zeroInterp : FTot := fun _ _ => 0

/-- Constant term of an affine expression: its value with every symbol at
zero. -/
def constTerm (e : Expr) : ℚ := evalT zeroInterp (fun _ => 0) e

/-- Coefficient of `v` in an affine expression: slope between the unit
point and the origin. -/
def coefOf (e : Expr) (v : String) : ℚ :=
  evalT zeroInterp (fun w => if w = v then 1 else 0) e - constTerm e

/-- `sympy.linear_eq_to_matrix(grad, vars)`, modelled by its mathematical
contract on the affine systems the solver hands it: row `i` of `A` holds
the coefficients of component `i` and `b` holds the negated constants. -/
def linearEqToMatrix (grad : List Expr) (vars' : List String) :
    List (List ℚ) × List ℚ :=
  (grad.map (fun e => vars'.map (coefOf e)), grad.map (fun e => -constTerm e))

/-- Environment reading the current iterate / solution mapping. -/
def envOf (m : List (String × ℚ)) : String → ℚ :=
  fun v => (lookupA m v).getD 0

/-- The result record built by the solving paths: `solucao` and
`iteracoes` always; `fob` only on the linear path (the source's dicts have
exactly those keys). -/
structure RunRecord where
  solucao : List (String × ℚ)
  fob : Option ℚ
  iteracoes : ℕ
  deriving DecidableEq, Repr

/-- The fatal errors the solver raises: singular or rank-deficient Hessian,
Newton non-convergence (carrying the iteration count), the `NameError` on a
zero-iteration loop (`it` unbound in the final f-string), a singular linear
system, and a malformed convexity domain. -/
inductive Err where
  | hessSingular
  | naoConvergiu (iteracoes : ℕ)
  | nomeIndefinido
  | linearSingular
  | dominioInvalido (msg : String)
  deriving DecidableEq, Repr

/-- `SymbolicSolver._resolver_linear`: assemble `A x = b` from the gradient
equations and solve by matrix inversion; a singular `A` is fatal.  `fob` is
the raw objective evaluated at the solution; `iteracoes` is `1`. -/
def resolverLinear (I : FTot) (obj : Expr) (grad : List Expr)
    (vars' : List String) : Except Err RunRecord :=
  let ab := linearEqToMatrix grad vars'
  match matInv ab.1 with
  | none => .error .linearSingular
  | some mi =>
    let solucao := vars'.zip (matVec mi ab.2)
    .ok { solucao := solucao, fob := some (evalT I (envOf solucao) obj),
          iteracoes := 1 }

/-- `grad_eval.norm() < tol` for a rational vector: the Frobenius norm is
monotone in the sum of squares, so the comparison is rendered exactly
without square roots. -/
def normLt (v : List ℚ) (tol : ℚ) : Bool :=
  decide (0 ≤ tol) && decide ((v.map (fun a => a * a)).sum < tol * tol)

/-- `xk[v] += delta[i]` for every enumerated variable. -/
def atualizarIterado (vars' : List String) (delta : List ℚ)
    (xk : List (String × ℚ)) : List (String × ℚ) :=
  vars'.enum.foldl
    (fun m p => updA m p.2 ((lookupA m p.2).getD 0 + delta.getD p.1 0)) xk

/-- The body of the Newton `for` loop, with the remaining iteration budget
as fuel and `it` the number of completed iterations.  Convergence returns
the record (plus the local-classification diagnostic line when requested);
a rank-deficient or non-invertible Hessian is the fatal singular error
(the source's `except` collapses both raises into one); exhausted fuel is
the non-convergence error with the final `it + 1` count — rendered through
`it` here, with `nomeIndefinido` when the loop body never ran and the
f-string's `it` is unbound. -/
def newtonLoop (S : Substrate) (grad : List Expr) (hess : List (List Expr))
    (vars' : List String) (tol : ℚ) (classificarLocal : Bool) :
    ℕ → ℕ → List (String × ℚ) → Except Err (RunRecord × List String)
  | 0, it, _ => .error (if it = 0 then .nomeIndefinido else .naoConvergiu it)
  | fuel + 1, it, xk =>
    let gradEval := grad.map (evalT S.ap (envOf xk))
    let hessEval := hess.map (fun row => row.map (evalT S.ap (envOf xk)))
    if normLt gradEval tol then
      .ok ({ solucao := xk, fob := none, iteracoes := it + 1 },
        if classificarLocal then [S.eigClass hessEval] else [])
    else if rankQ hessEval < vars'.length then .error .hessSingular
    else
      match matInv hessEval with
      | none => .error .hessSingular
      | some hin =>
        let delta := (matVec hin gradEval).map (fun q => -q)
        newtonLoop S grad hess vars' tol classificarLocal fuel (it + 1)
          (atualizarIterado vars' delta xk)

/-- `SymbolicSolver._resolver_nonlinear_newton`: prepare the initial guess
and iterate at most `max_iter` times; the converged-point eigenvalue
diagnostic only runs in `auto` mode with the indefinite-classification flag
set. -/
def resolverNonlinearNewton (S : Substrate) (grad : List Expr)
    (hess : List (List Expr)) (vars' : List String) (tol : ℚ) (maxIter : ℕ)
    (x0 : X0) (mode : Mode) (flag : Bool) :
    Except Err (RunRecord × List String) :=
  newtonLoop S grad hess vars' tol (mode = Mode.auto && flag) maxIter 0
    (chuteValores x0 vars')

/-- Solver instance state: the immutable configuration captured by
`__init__` (built model, step, tolerance, iteration cap, raw `x0`, convexity
interval) plus the mutable attributes the methods write (`lagrangian`,
`gradiente`, `hessiana`, `variaveis`, `historico`, and the
local-classification flag). -/
structure SolverState where
  model : BuiltModel
  passo : ℚ
  tol : ℚ
  maxIter : ℕ
  x0 : X0
  intervalo : Option Dominio
  classificarLocalmente : Bool
  lagrangian : Option Expr
  gradiente : Option (List Expr)
  hessiana : Option (List (List Expr))
  variaveis : Option (List String)
  historico : Option (List String)
  deriving DecidableEq, Repr

/-- The Lagrangian `executar` builds from the model. -/
def lagrangeanaDe (m : BuiltModel) : Expr :=
  construirLagrangeana m.objective m.vars m.constraints m.mode

/-- The gradient over `all` variables (`DerivativesCalculator.gradient`). -/
def gradienteDe (m : BuiltModel) : List Expr :=
  m.vars.all_symbols.map (deriv (lagrangeanaDe m))

/-- The Hessian over `all` variables (`DerivativesCalculator.hessian`). -/
def hessianaDe (m : BuiltModel) : List (List Expr) :=
  m.vars.all_symbols.map (fun vi =>
    m.vars.all_symbols.map (fun vj => deriv (deriv (lagrangeanaDe m) vi) vj))

/-- The diagnostic lines `_diagnostico_convexidade` prints for a verdict:
the classification header plus the extremum hint for the (strictly)
concave and (strictly) convex verdicts. -/
def diagLog (tipo : String) : List String :=
  let cab := ["[Diagnóstico] Lagrangeana classificada como: " ++ tipo]
  if tipo = "côncava" || tipo = "estritamente côncava" then
    cab ++ ["[Diagnóstico] ponto de MÁXIMO"]
  else if tipo = "convexa" || tipo = "estritamente convexa" then
    cab ++ ["[Diagnóstico] ponto de MÍNIMO"]
  else cab

/-- The flag update of `_diagnostico_convexidade`: the
local-classification flag is set — only ever from `False` to `True` — when
the verdict is neither convex nor concave; it is never reset. -/
def diagFlag (tipo : String) (flagIn : Bool) : Bool :=
  if tipo = "nem convexa nem côncava" then true else flagIn

/-- `SymbolicSolver._diagnostico_convexidade`: without an interval it only
prints a notice; otherwise it classifies the Hessian over the interval
(a malformed domain raises out of the analyzer), prints the diagnostic
lines and updates the local-classification flag.  The returned strings
model the prints. -/
def diagnosticoConvexidade (S : Substrate) (m : BuiltModel)
    (hess : List (List Expr)) : Option Dominio → Bool →
    Except String (Bool × List String)
  | none, flagIn =>
    .ok (flagIn,
      ["[Aviso] Análise de convexidade não realizada (intervalo não fornecido)."])
  | some d, flagIn =>
    match classificar S.apN hess m.vars.all_symbols (some d) with
    | .error e => .error e
    | .ok tipo => .ok (diagFlag tipo flagIn, diagLog tipo)

/-- The attribute writes `executar` performs before dispatching: the
Lagrangian, gradient, Hessian and variable list are unconditionally
recomputed from the model and stored. -/
def escreverDerivados (s : SolverState) : SolverState :=
  { s with lagrangian := some (lagrangeanaDe s.model),
           gradiente := some (gradienteDe s.model),
           hessiana := some (hessianaDe s.model),
           variaveis := some s.model.vars.all_symbols }

/-- What one `executar()` call leaves behind: the instance state after the
attribute writes, the diagnostic output, and the returned record or raised
error. -/
structure ExecOut where
  st : SolverState
  saida : List String
  res : Except Err RunRecord
  deriving Repr

/-- `SymbolicSolver.executar`: build the Lagrangian, derive gradient and
Hessian over all variables, run the convexity diagnosis, then dispatch on
the linearity test to the closed-form linear solve or to Newton. -/
def executarS (S : Substrate) (s : SolverState) : ExecOut :=
  let vars' := s.model.vars.all_symbols
  let grad := gradienteDe s.model
  let hess := hessianaDe s.model
  let s1 := escreverDerivados s
  match diagnosticoConvexidade S s.model hess s.intervalo
      s.classificarLocalmente with
  | .error e => ⟨s1, [], .error (.dominioInvalido e)⟩
  | .ok fl =>
    let s2 := { s1 with classificarLocalmente := fl.1 }
    if sistemaLinear grad then
      ⟨s2, fl.2, resolverLinear S.ap s.model.objective grad vars'⟩
    else
      match resolverNonlinearNewton S grad hess vars' s.tol s.maxIter s.x0
          s.model.mode fl.1 with
      | .ok rl => ⟨s2, fl.2 ++ rl.2, .ok rl.1⟩
      | .error e => ⟨s2, fl.2, .error e⟩

/-! ### KKTChecker (src/power_pnl/symbolic/karush_kuhn_tucker.py) -/

/-- Top-level additive spine of an expression, modelling sympy's
`expr.args` on the flattened `Add` the Lagrangian builder produces; a
subtracted term appears negated (sympy stores it as a `Mul` carrying `-1`,
which the extractor's two-argument pattern rejects, exactly as `.neg`
does here). -/
def addTerms : Expr → List Expr
  | .add a b => addTerms a ++ addTerms b
  | .sub a b => addTerms a ++ [Expr.neg b]
  | e => [e]

/-- `subtermo.is_Pow` with a base symbol whose name starts with `s`. -/
def slackPow : Expr → Bool
  | .pow (.var v) _ => v.startsWith "s"
  | _ => false

/-- Re-sum a term list (the `Add` left after sympy cancels the subtracted
slack term exactly). -/
def somaExprs : List Expr → Expr
  | [] => .const 0
  | [e] => e
  | e :: t => .add e (somaExprs t)

/-- The slack-stripping step of `_extrair_restricoes`: subtract every
`s…**2` argument of an additive residual.  A non-additive residual
iterates sympy's non-term arguments and is left unchanged. -/
def removerFolga (e : Expr) : Expr :=
  let ts := addTerms e
  if ts.length ≤ 1 then e
  else somaExprs (ts.filter (fun t => !slackPow t))

/-- `KKTChecker._extrair_restricoes`: keep the Lagrangian's two-factor
product terms whose first factor is a bare symbol (sympy's canonical
order puts the multiplier symbol first there) and strip their squared
slack. -/
def extrairRestricoes (l : Expr) : List (String × Expr) :=
  (addTerms l).filterMap (fun t =>
    match t with
    | .mul (.var m) e => some (m, removerFolga e)
    | _ => none)

/-- The checker's decision variables: solution entries whose name contains
none of the substrings `lambda`, `pi_up`, `pi_dn`, `s`. -/
def kktVariaveis (sol : List (String × ℚ)) : List (String × ℚ) :=
  sol.filter (fun kv =>
    !(strContains kv.1 "lambda" || strContains kv.1 "pi_up" ||
      strContains kv.1 "pi_dn" || strContains kv.1 "s"))

/-- Insert into a list sorted by Python's tuple order on `(index, value)`. -/
def insPair (p : ℕ × ℚ) : List (ℕ × ℚ) → List (ℕ × ℚ)
  | [] => [p]
  | q :: t =>
    if decide (p.1 < q.1) || (decide (p.1 = q.1) && decide (p.2 ≤ q.2)) then
      p :: q :: t
    else q :: insPair p t

/-- `sorted(itens)` for the index/value pairs of `_extrair_lista`. -/
def ordenarPares : List (ℕ × ℚ) → List (ℕ × ℚ)
  | [] => []
  | p :: t => insPair p (ordenarPares t)

/-- `KKTChecker._extrair_lista`: solution entries whose key starts with the
prefix, ordered by the numeral after it.  (A non-numeral suffix raises in
the source; such keys are outside the model, consistent with the
`lambda1…`/`pi_up1…`/`s1…` naming scheme.) -/
def extrairLista (sol : List (String × ℚ)) (prefixo : String) : List ℚ :=
  (ordenarPares (sol.filterMap (fun kv =>
    if kv.1.startsWith prefixo then
      ((kv.1.drop prefixo.length).toNat?).map (fun i => (i, kv.2))
    else none))).map (fun p => p.2)

/-- Imaginary part of a solution value; solution values are rationals in
this embedding, so `sympy.im` of them is `0`. -/
def imQ (_ : ℚ) : ℚ := 0

/-- Checker state: the Lagrangian, the complete solution mapping and the
tolerance (the derived constraint list, variable partition and multiplier
lists are recomputed from these pure inputs wherever used). -/
structure KKT where
  lagrangeana : Expr
  solucao : List (String × ℚ)
  tol : ℚ
  deriving DecidableEq, Repr

/-- Stationarity-violation message. -/
def msgEst (v : String) (valor : ℚ) : String :=
  "[KKT] Estacionariedade falhou para " ++ v ++ ": dL/d" ++ v ++ " = " ++
    ratStr valor

/-- Primal-complementarity violation message. -/
def msgCompPrimal (v : String) : String :=
  "[KKT] Complementaridade primal violada: " ++ v ++
    " * dL/d" ++ v ++ " = {var_val} * {deriv_val} = {produto}"

/-- Equality-violation message of the constraint-satisfaction check. -/
def msgIgualdade (mult : String) (valor : ℚ) : String :=
  "[KKT] Igualdade não satisfeita: " ++ mult ++ " = " ++ ratStr valor

/-- Lower-inequality violation message. -/
def msgDesigBaixo (mult : String) (valor : ℚ) : String :=
  "[KKT] Desigualdade (maior-igual) violada: " ++ mult ++ " = " ++
    ratStr valor ++ " < 0"

/-- Upper-inequality violation message. -/
def msgDesigCima (mult : String) (valor : ℚ) : String :=
  "[KKT] Desigualdade (menor-igual) violada: " ++ mult ++ " = " ++
    ratStr valor ++ " > 0"

/-- Dual-complementarity violation message. -/
def msgCompDual (mult : String) (produto : ℚ) : String :=
  "[KKT] Complementaridade dual violada: " ++ mult ++ " * (...) = " ++
    ratStr produto

/-- Primal-domain violation message, carrying the symbolically solved
limit. -/
def msgDominio (v : String) (limite : ℚ) (acima : Bool) : String :=
  "[KKT] Domínio violado: " ++ v ++ (if acima then " > " else " < ") ++
    ratStr limite

/-- Invalid-multiplier message for a nonzero imaginary part. -/
def msgMultIm (nome : String) (i : ℕ) : String :=
  "[KKT] Multiplicador " ++ nome ++ natStr (i + 1) ++
    " inválido: parte imaginária"

/-- Invalid-multiplier message for a negative inequality multiplier. -/
def msgMultNeg (nome : String) (i : ℕ) (valor : ℚ) : String :=
  "[KKT] Multiplicador " ++ nome ++ natStr (i + 1) ++
    " inválido: valor negativo " ++ ratStr valor ++ " < 0"

/-- The loop of `verificar_estacionariedade`: the first decision variable
whose Lagrangian derivative exceeds the tolerance yields `False` with that
single message. -/
def loopEst (S : Substrate) (l : Expr) (sol : List (String × ℚ)) (tol : ℚ) :
    List (String × ℚ) → Bool × List String
  | [] => (true, [])
  | (v, _) :: rest =>
    let valor := evalT S.ap (envOf sol) (deriv l v)
    if tol < |valor| then (false, [msgEst v valor])
    else loopEst S l sol tol rest

/-- KKT condition 1. -/
def verificarEstacionariedade (S : Substrate) (k : KKT) : Bool × List String :=
  loopEst S k.lagrangeana k.solucao k.tol (kktVariaveis k.solucao)

/-- The loop of `verificar_complementaridade_primal`. -/
def loopCompPrimal (S : Substrate) (l : Expr) (sol : List (String × ℚ))
    (tol : ℚ) : List (String × ℚ) → Bool × List String
  | [] => (true, [])
  | (v, _) :: rest =>
    let derivVal := evalT S.ap (envOf sol) (deriv l v)
    let varVal := (lookupA sol v).getD 0
    if tol < |derivVal * varVal| then (false, [msgCompPrimal v])
    else loopCompPrimal S l sol tol rest

/-- KKT condition 2. -/
def verificarComplementaridadePrimal (S : Substrate) (k : KKT) :
    Bool × List String :=
  loopCompPrimal S k.lagrangeana k.solucao k.tol (kktVariaveis k.solucao)

/-- The loop of `verificar_satisfacao_restricoes`: each extracted residual
is checked against the relation selected by its multiplier's name prefix;
multipliers with other prefixes are skipped. -/
def loopRestricoes (S : Substrate) (sol : List (String × ℚ)) (tol : ℚ) :
    List (String × Expr) → Bool × List String
  | [] => (true, [])
  | (mult, e) :: rest =>
    let valor := evalT S.ap (envOf sol) e
    if mult.startsWith "lambda" then
      if tol < |valor| then (false, [msgIgualdade mult valor])
      else loopRestricoes S sol tol rest
    else if mult.startsWith "pi_dn" then
      if valor < -tol then (false, [msgDesigBaixo mult valor])
      else loopRestricoes S sol tol rest
    else if mult.startsWith "pi_up" then
      if tol < valor then (false, [msgDesigCima mult valor])
      else loopRestricoes S sol tol rest
    else loopRestricoes S sol tol rest

/-- KKT condition 3. -/
def verificarSatisfacaoRestricoes (S : Substrate) (k : KKT) :
    Bool × List String :=
  loopRestricoes S k.solucao k.tol (extrairRestricoes k.lagrangeana)

/-- The loop of `verificar_complementaridade_dual`. -/
def loopCompDual (S : Substrate) (sol : List (String × ℚ)) (tol : ℚ) :
    List (String × Expr) → Bool × List String
  | [] => (true, [])
  | (mult, e) :: rest =>
    let produto := (lookupA sol mult).getD 0 * evalT S.ap (envOf sol) e
    if tol < |produto| then (false, [msgCompDual mult produto])
    else loopCompDual S sol tol rest

/-- KKT condition 4. -/
def verificarComplementaridadeDual (S : Substrate) (k : KKT) :
    Bool × List String :=
  loopCompDual S k.solucao k.tol (extrairRestricoes k.lagrangeana)

/-- The loop of `verificar_dominio_primal`: only single-variable residuals
are examined, and the violated bound is solved symbolically for the
message. -/
def loopDominio (S : Substrate) (sol : List (String × ℚ)) (tol : ℚ) :
    List (String × Expr) → Bool × List String
  | [] => (true, [])
  | (mult, e) :: rest =>
    let varSet := freeVarSet e
    if varSet.length ≠ 1 then loopDominio S sol tol rest
    else
      let v := varSet.headD ""
      let exprVal := evalT S.ap (envOf sol) e
      if mult.startsWith "pi_up" && decide (tol < exprVal) then
        (false, [msgDominio v (S.solveVar e v) true])
      else if mult.startsWith "pi_dn" && decide (exprVal < -tol) then
        (false, [msgDominio v (S.solveVar e v) false])
      else loopDominio S sol tol rest

/-- KKT condition 5. -/
def verificarDominioPrimal (S : Substrate) (k : KKT) : Bool × List String :=
  loopDominio S k.solucao k.tol (extrairRestricoes k.lagrangeana)

/-- The λ loop of `verificar_dominio_multiplicadores`. -/
def loopLambda (tol : ℚ) : List (ℕ × ℚ) → Bool × List String
  | [] => (true, [])
  | (i, val) :: rest =>
    if tol < |imQ val| then (false, [msgMultIm "lambda" i])
    else loopLambda tol rest

/-- The π loop of `verificar_dominio_multiplicadores`: realness first, then
non-negativity. -/
def loopPi (tol : ℚ) (nome : String) : List (ℕ × ℚ) → Bool × List String
  | [] => (true, [])
  | (i, val) :: rest =>
    if tol < |imQ val| then (false, [msgMultIm nome i])
    else if val < -tol then (false, [msgMultNeg nome i val])
    else loopPi tol nome rest

/-- KKT condition 6. -/
def verificarDominioMultiplicadores (k : KKT) : Bool × List String :=
  let la := loopLambda k.tol (extrairLista k.solucao "lambda").enum
  if !la.1 then la
  else
    let pu := loopPi k.tol "pi_up" (extrairLista k.solucao "pi_up").enum
    if !pu.1 then pu
    else loopPi k.tol "pi_dn" (extrairLista k.solucao "pi_dn").enum

/-- Final log line when every condition holds. -/
def msgSucesso : String := "✅ Todas as condições de KKT foram satisfeitas.\n"

/-- Final log line when some condition fails. -/
def msgFalha : String := "❌ Solução viola alguma condição de KKT.\n"

/-- `KKTChecker.verificar_todas`: the six checks run unconditionally in
their fixed order (the Python list literal evaluates every element), the
verdict is their conjunction, and the ordered message log collects each
check's appended messages followed by the final verdict line. -/
def verificarTodas (S : Substrate) (k : KKT) : Bool × List String :=
  let c1 := verificarEstacionariedade S k
  let c2 := verificarComplementaridadePrimal S k
  let c3 := verificarSatisfacaoRestricoes S k
  let c4 := verificarComplementaridadeDual S k
  let c5 := verificarDominioPrimal S k
  let c6 := verificarDominioMultiplicadores k
  let todas := c1.1 && c2.1 && c3.1 && c4.1 && c5.1 && c6.1
  (todas, c1.2 ++ c2.2 ++ c3.2 ++ c4.2 ++ c5.2 ++ c6.2 ++
    [if todas then msgSucesso else msgFalha])

/-! ### Generic evaluation lemmas for the builder's folds -/

theorem evalT_foldl_sub {α : Type} (I : FTot) (env : String → ℚ)
    (ts : List α) (body : α → Expr) (init : Expr) :
    evalT I env (ts.foldl (fun l p => .sub l (body p)) init) =
      evalT I env init - (ts.map (fun p => evalT I env (body p))).sum := by
  induction ts generalizing init with
  | nil => simp
  | cons h t ih =>
    simp only [List.foldl_cons, List.map_cons, List.sum_cons, ih, evalT]
    ring

theorem evalT_foldl_add {α : Type} (I : FTot) (env : String → ℚ)
    (ts : List α) (body : α → Expr) (init : Expr) :
    evalT I env (ts.foldl (fun l p => .add l (body p)) init) =
      evalT I env init + (ts.map (fun p => evalT I env (body p))).sum := by
  induction ts generalizing init with
  | nil => simp
  | cons h t ih =>
    simp only [List.foldl_cons, List.map_cons, List.sum_cons, ih, evalT]
    ring

theorem enumFrom_map_sum {α : Type} (xs : List α) (k : ℕ) (f : ℕ → α → ℚ)
    (d : α) :
    ((List.enumFrom k xs).map (fun p => f p.1 p.2)).sum =
      ((List.range xs.length).map (fun i => f (k + i) (xs.getD i d))).sum := by
  induction xs generalizing k with
  | nil => simp
  | cons h t ih =>
    simp only [List.enumFrom, List.map_cons, List.sum_cons, ih,
      List.length_cons, List.range_succ_eq_map, List.map_map]
    have hfun : ∀ i ∈ List.range t.length,
        f (k + 1 + i) (t.getD i d) =
          ((fun i => f (k + i) ((h :: t).getD i d)) ∘ Nat.succ) i := by
      intro i _
      simp only [Function.comp, List.getD_cons_succ]
      congr 1
      omega
    rw [List.map_congr_left hfun]
    simp

theorem enum_map_sum {α : Type} (xs : List α) (f : ℕ → α → ℚ) (d : α) :
    (xs.enum.map (fun p => f p.1 p.2)).sum =
      ((List.range xs.length).map (fun i => f i (xs.getD i d))).sum := by
  have h := enumFrom_map_sum xs 0 f d
  simpa using h

/-! ### Claim C1 -/

/-- **C1.**  For every objective, variable set and constraint set,
`LagrangianBuilder` produces exactly
`L = σ·f − Σᵢ λᵢ·hᵢ + σ·Σⱼ π_upⱼ·(gⱼ − bⱼ + sⱼ²) − σ·Σₖ π_dnₖ·(gₖ − bₖ − s_{|up|+k}²)`
with `σ = +1` in `min` mode and `σ = −1` in `max` mode (mode `auto` is
resolved upstream), where the slack paired with the `k`-th lower inequality
is the one at index `|inequalities_up| + k` of the shared pool.  Stated as
equality of the built expression's value under every environment and every
interpretation of the opaque functions. -/
theorem claim_C1 (I : FTot) (env : String → ℚ) (obj : Expr)
    (vars' : VariableSet) (cs : ConstraintSet) (mode : Mode)
    (hmode : mode ≠ Mode.auto) :
    evalT I env (construirLagrangeana obj vars' cs mode) =
      (if mode = Mode.min then (1 : ℚ) else -1) * evalT I env obj
      - ((List.range cs.equalities.length).map (fun i =>
          env (vars'.lmd.getD i "lambda?") *
            evalT I env (cs.equalities.getD i (.const 0)))).sum
      + (if mode = Mode.min then (1 : ℚ) else -1) *
        ((List.range cs.inequalities_up.length).map (fun j =>
          env (vars'.pi_up.getD j "pi_up?") *
            (evalT I env (cs.inequalities_up.getD j (.const 0, 0)).1
             - (cs.inequalities_up.getD j (.const 0, 0)).2
             + env (vars'.s.getD j "s?") ^ 2))).sum
      - (if mode = Mode.min then (1 : ℚ) else -1) *
        ((List.range cs.inequalities_dn.length).map (fun k =>
          env (vars'.pi_dn.getD k "pi_dn?") *
            (evalT I env (cs.inequalities_dn.getD k (.const 0, 0)).1
             - (cs.inequalities_dn.getD k (.const 0, 0)).2
             - env (vars'.s.getD (cs.inequalities_up.length + k) "s?") ^ 2))).sum
    := by
  have hup : ∀ j : ℕ, ∀ g : Expr, ∀ b : ℚ, ∀ sj : String,
      evalT I env (.mul (.var (vars'.pi_up.getD j "pi_up?"))
        (upResidual g b sj)) =
        env (vars'.pi_up.getD j "pi_up?") *
          (evalT I env g - b + env sj ^ 2) := by
    intro j g b sj
    simp [evalT, upResidual]
  have hdn : ∀ k : ℕ, ∀ g : Expr, ∀ b : ℚ, ∀ sk : String,
      evalT I env (.mul (.var (vars'.pi_dn.getD k "pi_dn?"))
        (dnResidual g b sk)) =
        env (vars'.pi_dn.getD k "pi_dn?") *
          (evalT I env g - b - env sk ^ 2) := by
    intro k g b sk
    simp [evalT, dnResidual]
  cases mode with
  | auto => exact absurd rfl hmode
  | min =>
    simp only [construirLagrangeana, reduceCtorEq, reduceIte]
    rw [evalT_foldl_sub, evalT_foldl_add, evalT_foldl_sub]
    rw [enum_map_sum (f := fun i h =>
      evalT I env (.mul (.var (vars'.lmd.getD i "lambda?")) h)) (d := .const 0)]
    rw [enum_map_sum (f := fun j (gb : Expr × ℚ) =>
      evalT I env (.mul (.var (vars'.pi_up.getD j "pi_up?"))
        (upResidual gb.1 gb.2 (vars'.s.getD j "s?")))) (d := (.const 0, 0))]
    rw [enum_map_sum (f := fun k (gb : Expr × ℚ) =>
      evalT I env (.mul (.var (vars'.pi_dn.getD k "pi_dn?"))
        (dnResidual gb.1 gb.2
          (vars'.s.getD (cs.inequalities_up.length + k) "s?"))))
      (d := (.const 0, 0))]
    simp only [hup, hdn, evalT]
    ring
  | max =>
    simp only [construirLagrangeana, reduceCtorEq, reduceIte]
    rw [evalT_foldl_add, evalT_foldl_sub, evalT_foldl_sub]
    rw [enum_map_sum (f := fun i h =>
      evalT I env (.mul (.var (vars'.lmd.getD i "lambda?")) h)) (d := .const 0)]
    rw [enum_map_sum (f := fun j (gb : Expr × ℚ) =>
      evalT I env (.mul (.var (vars'.pi_up.getD j "pi_up?"))
        (upResidual gb.1 gb.2 (vars'.s.getD j "s?")))) (d := (.const 0, 0))]
    rw [enum_map_sum (f := fun k (gb : Expr × ℚ) =>
      evalT I env (.mul (.var (vars'.pi_dn.getD k "pi_dn?"))
        (dnResidual gb.1 gb.2
          (vars'.s.getD (cs.inequalities_up.length + k) "s?"))))
      (d := (.const 0, 0))]
    simp only [hup, hdn, evalT]
    ring

/-- A concrete substrate for witness instances. -/
def substr0 : Substrate :=
  ⟨fun _ _ => 0, fun _ _ => none, fun _ => "", fun _ _ => 0⟩

/-- Concrete variable set for witnesses: one of each role, two slacks. -/
def vsW : VariableSet := VariableSet.mkNamed 1 1 1 1

/-- Concrete constraints: `x1 = 10`, `x1 ≤ 8`, `x1 ≥ 1`. -/
def csW : ConstraintSet :=
  ⟨[.sub (.var "x1") (.const 10)], [(.var "x1", 8)], [(.var "x1", 1)]⟩

/-- Concrete environment: `x1 = 3`, every multiplier and slack `2`. -/
def envW : String → ℚ := fun v => if v = "x1" then 3 else 2

/-- Witness for C1: the hypothesis holds in `min` mode and the formula is
obtained at a concrete model. -/
theorem claim_C1_witness :
    evalT zeroInterp envW
      (construirLagrangeana (.pow (.var "x1") 2) vsW csW Mode.min) = 25 := by
  rw [claim_C1 zeroInterp envW (.pow (.var "x1") 2) vsW csW Mode.min
    (by decide)]
  have hvs : vsW = ⟨["x1"], ["lambda1"], ["pi_up1"], ["pi_dn1"], ["s1", "s2"]⟩ :=
    rfl
  rw [hvs]
  simp +decide only [csW, envW, List.length_cons, List.length_nil,
    List.range_succ, List.range_zero, List.map_cons, List.map_nil,
    List.nil_append, List.map_append, List.sum_append,
    List.sum_cons, List.sum_nil, List.getD, evalT, zeroInterp]
  norm_num [evalT, zeroInterp, envW]

/-! ### Claim C8 -/

/-- Every branch of the fill loop's role heuristic is the same `0.1`. -/
theorem heurDefault_eq (v : String) : heurDefault v = 1 / 10 := by
  unfold heurDefault
  split <;> [rfl; split <;> [rfl; split <;> rfl]]

theorem lookupA_map_val {α β : Type} (m : List (String × α)) (g : α → β)
    (v : String) :
    lookupA (m.map (fun kv => (kv.1, g kv.2))) v = (lookupA m v).map g := by
  induction m with
  | nil => simp [lookupA]
  | cons p t ih =>
    obtain ⟨a, b⟩ := p
    by_cases h : a = v <;> simp [lookupA, h, ih]

theorem lookupA_tabulate {α : Type} (xs : List String) (f : String → α)
    (v : String) :
    lookupA (xs.map (fun w => (w, f w))) v =
      if v ∈ xs then some (f v) else none := by
  induction xs with
  | nil => simp [lookupA]
  | cons w t ih =>
    by_cases h : w = v
    · subst h
      simp [lookupA, ih]
    · have hvw : ¬(v = w) := fun hh => h hh.symm
      simp [lookupA, h, ih, hvw]

theorem lookupA_zip_isSome {α : Type} (xs : List String) (l : List α)
    (v : String) (hlen : l.length = xs.length) (hv : v ∈ xs) :
    (lookupA (xs.zip l) v).isSome := by
  induction xs generalizing l with
  | nil => cases hv
  | cons w t ih =>
    cases l with
    | nil => simp at hlen
    | cons a l' =>
      by_cases h : w = v
      · simp [List.zip_cons_cons, lookupA, h]
      · rcases List.mem_cons.mp hv with h' | h'
        · exact absurd h'.symm h
        · simpa [List.zip_cons_cons, lookupA, h] using
            ih l' (by simpa using hlen) h'

theorem passo_other (ch : List (String × Option ℚ)) (v w : String)
    (hv : v ≠ w) : lookupA (passoPreencher ch w) v = lookupA ch v := by
  unfold passoPreencher
  split
  · rfl
  · exact lookupA_updA_other _ _ _ _ hv

theorem preencher_preserva (v : String) (q : ℚ) (variaveis : List String) :
    ∀ ch, lookupA ch v = some (some q) →
      lookupA (preencher variaveis ch) v = some (some q) := by
  induction variaveis with
  | nil =>
    intro ch h
    simpa [preencher] using h
  | cons w t ih =>
    intro ch h
    rw [show preencher (w :: t) ch = preencher t (passoPreencher ch w) from
      rfl]
    apply ih
    by_cases hw : v = w
    · subst hw
      simp [passoPreencher, h]
    · rwa [passo_other ch v w hw]

theorem preencher_total (v : String) (variaveis : List String)
    (hv : v ∈ variaveis) :
    ∀ ch, ∃ q : ℚ, lookupA (preencher variaveis ch) v = some (some q) := by
  induction variaveis with
  | nil => cases hv
  | cons w t ih =>
    intro ch
    rw [show preencher (w :: t) ch = preencher t (passoPreencher ch w) from
      rfl]
    by_cases hw : v = w
    · subst hw
      rcases hq : lookupA ch v with _ | oq
      · refine ⟨heurDefault v, preencher_preserva v _ t _ ?_⟩
        simp [passoPreencher, hq, lookupA_updA_self]
      · cases oq with
        | none =>
          refine ⟨heurDefault v, preencher_preserva v _ t _ ?_⟩
          simp [passoPreencher, hq, lookupA_updA_self]
        | some q' =>
          refine ⟨q', preencher_preserva v _ t _ ?_⟩
          simp [passoPreencher, hq]
    · rcases List.mem_cons.mp hv with h' | h'
      · exact absurd h' hw
      · exact ih h' (passoPreencher ch w)

theorem preencher_default (v : String) (variaveis : List String)
    (hv : v ∈ variaveis) :
    ∀ ch, (lookupA ch v = none ∨ lookupA ch v = some none) →
      lookupA (preencher variaveis ch) v = some (some (1 / 10)) := by
  induction variaveis with
  | nil => cases hv
  | cons w t ih =>
    intro ch h
    rw [show preencher (w :: t) ch = preencher t (passoPreencher ch w) from
      rfl]
    by_cases hw : v = w
    · subst hw
      have hstep : lookupA (passoPreencher ch v) v =
          some (some (heurDefault v)) := by
        rcases h with h | h <;> simp [passoPreencher, h, lookupA_updA_self]
      rw [heurDefault_eq] at hstep
      exact preencher_preserva v _ t _ hstep
    · rcases List.mem_cons.mp hv with h' | h'
      · exact absurd h' hw
      · refine ih h' (passoPreencher ch w) ?_
        rwa [passo_other ch v w hw]

/-- The value `x0` itself assigns to a model variable; `none` models a
variable left unassigned (missing key, `None` marker, length-mismatched
list, or an unusable `x0`). -/
def x0Atribui (x0 : X0) (variaveis : List String) (v : String) : Option ℚ :=
  match x0 with
  | .dictSym m => lookupA m v
  | .dictStr m => lookupA m v
  | .escalar c => some c
  | .lista l =>
    if l.length = variaveis.length then lookupA (variaveis.zip l) v else none
  | .outro => none

theorem chuteBase_none (x0 : X0) (variaveis : List String) (v : String)
    (hv : v ∈ variaveis) (h : x0Atribui x0 variaveis v = none) :
    lookupA (chuteBase x0 variaveis) v = none ∨
      lookupA (chuteBase x0 variaveis) v = some none := by
  cases x0 with
  | dictSym m =>
    left
    have hm : lookupA m v = none := h
    simpa [chuteBase, lookupA_map_val] using congrArg (Option.map some) hm
  | dictStr m =>
    right
    have hm : lookupA m v = none := h
    simp [chuteBase, lookupA_tabulate, hv, hm]
  | escalar c => exact absurd h (by simp [x0Atribui])
  | lista l =>
    by_cases hlen : l.length = variaveis.length
    · have hsome := lookupA_zip_isSome variaveis l v hlen hv
      have : x0Atribui (.lista l) variaveis v = lookupA (variaveis.zip l) v := by
        simp [x0Atribui, hlen]
      rw [this] at h
      rw [h] at hsome
      cases hsome
    · left
      simp [chuteBase, hlen, lookupA]
  | outro =>
    left
    simp [chuteBase, lookupA]

/-- **C8.**  For every accepted form of `x0` (possibly partial symbol- or
name-keyed mapping, broadcast scalar, aligned list, or anything else) and
every model variable, the prepared initial guess binds the variable to some
value, and to exactly the uniform default `0.1` whenever `x0` leaves it
unassigned — regardless of the variable's role. -/
theorem claim_C8 (x0 : X0) (variaveis : List String) (v : String)
    (hv : v ∈ variaveis) :
    ∃ q : ℚ, lookupA (prepararChute x0 variaveis) v = some (some q) ∧
      (x0Atribui x0 variaveis v = none → q = 1 / 10) := by
  rcases preencher_total v variaveis hv (chuteBase x0 variaveis) with ⟨q, hq⟩
  refine ⟨q, hq, fun hnone => ?_⟩
  have hdef := preencher_default v variaveis hv (chuteBase x0 variaveis)
    (chuteBase_none x0 variaveis v hv hnone)
  rw [hq] at hdef
  exact Option.some_inj.mp (Option.some_inj.mp hdef)

/-- Witness for C8: a partial name-keyed guess on a model with one variable
of each role; the unassigned slack gets `0.1`. -/
theorem claim_C8_witness :
    ∃ q : ℚ,
      lookupA (prepararChute (.dictStr [("x1", 7)]) ["x1", "lambda1", "s1"])
        "s1" = some (some q) ∧
      (x0Atribui (.dictStr [("x1", 7)]) ["x1", "lambda1", "s1"] "s1" = none →
        q = 1 / 10) :=
  claim_C8 (.dictStr [("x1", 7)]) ["x1", "lambda1", "s1"] "s1" (by decide)

/-! ### Claim C3 -/

instance instDecEqExcept {ε α : Type} [DecidableEq ε] [DecidableEq α] :
    DecidableEq (Except ε α)
  | .error x, .error y =>
    if h : x = y then .isTrue (by rw [h])
    else .isFalse (fun hh => h (by cases hh; rfl))
  | .error _, .ok _ => .isFalse (fun hh => by cases hh)
  | .ok _, .error _ => .isFalse (fun hh => by cases hh)
  | .ok x, .ok y =>
    if h : x = y then .isTrue (by rw [h])
    else .isFalse (fun hh => h (by cases hh; rfl))

theorem gerarPontos_faixa_1d :
    gerarPontos (Dominio.faixa (-5) 5) 1 =
      .ok [[-5], [-5 / 2], [0], [5 / 2], [5]] := by
  norm_num [gerarPontos, cartPow, linspace5, List.range_succ]

/-- **C3 counterexample.**  The claim asserts that `classificar` returns
`"linear"` for `f(x) = x` (second derivative identically `0`) over the
domain `(-5, 5)`; the code returns `"convexa"`, because the `all ≥ 0` test
precedes the approximate-zero test in `_classificar_valores_1d`. -/
theorem claim_C3_counterexample :
    classificar (fun _ _ => none)
      [[deriv (deriv (Expr.var "x1") "x1") "x1"]] ["x1"]
      (some (.faixa (-5) 5)) = .ok "convexa" ∧
    ("convexa" : String) ≠ "linear" := by
  constructor
  · simp only [classificar, List.length_cons, List.length_nil,
      gerarPontos_faixa_1d]
    decide
  · decide

/-- **C3 (amended).**  In the 1-variable case `classificar` classifies by
the source's ordered sign tests, in which the `all ≥ 0` branch precedes the
approximate-zero branch: an identically-zero sampled second derivative is
classified `"convexa"` (the `"linear"` verdict is reachable only for
approximately-zero values of mixed sign).  In particular `f(x) = x` over
`(-5, 5)` yields `"convexa"` (not `"linear"`), and `f(x) = x²` yields
`"estritamente convexa"`. -/
theorem claim_C3_amended :
    (∀ valores : List ℚ, valores ≠ [] → (∀ v ∈ valores, v = 0) →
      classificarValores1d valores = "convexa") ∧
    classificar (fun _ _ => none)
      [[deriv (deriv (Expr.var "x1") "x1") "x1"]] ["x1"]
      (some (.faixa (-5) 5)) = .ok "convexa" ∧
    classificar (fun _ _ => none)
      [[deriv (deriv (Expr.pow (Expr.var "x1") 2) "x1") "x1"]] ["x1"]
      (some (.faixa (-5) 5)) = .ok "estritamente convexa" ∧
    classificarValores1d [1 / 10 ^ 11, -(1 / 10 ^ 11)] = "linear" := by
  refine ⟨?_, ?_, ?_, ?_⟩
  · intro valores hne hz
    cases valores with
    | nil => exact absurd rfl hne
    | cons a t =>
      have ha : a = 0 := hz a (by simp)
      subst ha
      have hpos : allPos (0 :: t) = false := by simp [allPos]
      have hnn : allNonneg (0 :: t) = true := by
        simp only [allNonneg, List.all_eq_true, decide_eq_true_eq]
        intro v hv
        rw [hz v hv]
      simp [classificarValores1d, hpos, hnn]
  · simp only [classificar, List.length_cons, List.length_nil,
      gerarPontos_faixa_1d]
    decide
  · have hev : ∀ p : ℚ, evalAt (fun _ _ => none)
        (deriv (deriv (Expr.pow (Expr.var "x1") 2) "x1") "x1")
        [("x1", p)] = some 2 := by
      intro p
      norm_num [evalAt, evalN, deriv, freeVars, lookupA]
    simp only [classificar, List.length_cons, List.length_nil, Nat.zero_add,
      gerarPontos_faixa_1d]
    show convexidade1d (fun _ _ => none)
      [[deriv (deriv (Expr.pow (Expr.var "x1") 2) "x1") "x1"]] ["x1"]
      [[-5], [-5 / 2], [0], [5 / 2], [5]] = .ok "estritamente convexa"
    simp only [convexidade1d, hessEntry, List.getD_cons_zero,
      List.isEmpty_cons, Bool.not_false, if_true,
      List.filterMap_cons, List.filterMap_nil, List.headD_cons, hev]
    decide
  · norm_num [classificarValores1d, allPos, allNonneg, allNeg, allNonpos,
      allZero, approxZero, List.all_cons, List.all_nil]
    intro h
    rw [abs_of_pos (by norm_num : (0 : ℚ) < 1 / 100000000000)] at h
    norm_num at h

/-- Witness for the amended C3: the universally quantified first part at the
concrete value list `[0, 0]`. -/
theorem claim_C3_witness : classificarValores1d [0, 0] = "convexa" :=
  claim_C3_amended.1 [0, 0] (by decide) (by decide)

/-! ### Claim C9 -/

/-- **C9.**  A numeric evaluation failure at one sampled point is skipped
without aborting the remaining points and is never escalated: inserting a
failing point anywhere into the sample leaves the collected values and the
1-variable / 2-variable classifications unchanged, and when no sampled point
yields a usable value `classificar` returns `"indeterminado"`.  (Failures
are `none` results of the per-point evaluation, the model of the exceptions
the source catches per point.) -/
theorem claim_C9 :
    (∀ (J : FNum) (hess : List (List Expr)) (vars' : List String)
        (pts1 pts2 : List (List ℚ)) (p : List ℚ),
      evalAt J (hessEntry hess 0 0) [(vars'.getD 0 "", p.headD 0)] = none →
      ((pts1 ++ p :: pts2).filterMap (fun q =>
          evalAt J (hessEntry hess 0 0) [(vars'.getD 0 "", q.headD 0)]) =
        (pts1 ++ pts2).filterMap (fun q =>
          evalAt J (hessEntry hess 0 0) [(vars'.getD 0 "", q.headD 0)]) ∧
       (pts1 ++ pts2 ≠ [] →
         convexidade1d J hess vars' (pts1 ++ p :: pts2) =
           convexidade1d J hess vars' (pts1 ++ pts2)))) ∧
    (∀ (J : FNum) (hess : List (List Expr)) (v : String)
        (pts : List (List ℚ)),
      pts ≠ [] →
      pts.all (fun q => q.length = 1) →
      (∀ q ∈ pts, evalAt J (hessEntry hess 0 0) [(v, q.headD 0)] = none) →
      classificar J hess [v] (some (.pontos pts)) = .ok "indeterminado") ∧
    (∀ (J : FNum) (hess : List (List Expr)) (x1 x2 : String)
        (pts1 pts2 : List (List ℚ)) (p : List ℚ),
      avaliarPonto2d J hess x1 x2 p = none →
      convexidade2d J hess [x1, x2] (pts1 ++ p :: pts2) =
        convexidade2d J hess [x1, x2] (pts1 ++ pts2)) ∧
    (∀ (J : FNum) (hess : List (List Expr)) (x1 x2 : String)
        (pts : List (List ℚ)),
      (∀ q ∈ pts, avaliarPonto2d J hess x1 x2 q = none) →
      convexidade2d J hess [x1, x2] pts = "indeterminado") := by
  refine ⟨?_, ?_, ?_, ?_⟩
  · intro J hess vars' pts1 pts2 p hfail
    have hmap : (pts1 ++ p :: pts2).filterMap (fun q =>
        evalAt J (hessEntry hess 0 0) [(vars'.getD 0 "", q.headD 0)]) =
        (pts1 ++ pts2).filterMap (fun q =>
          evalAt J (hessEntry hess 0 0) [(vars'.getD 0 "", q.headD 0)]) := by
      rw [List.filterMap_append, List.filterMap_append, List.filterMap_cons,
        hfail]
    refine ⟨hmap, fun hne => ?_⟩
    have h1 : ((pts1 ++ p :: pts2).isEmpty) = false := by
      cases pts1 <;> simp
    have h2 : ((pts1 ++ pts2).isEmpty) = false := by
      cases h : pts1 ++ pts2 with
      | nil => exact absurd h hne
      | cons a t => simp
    simp only [convexidade1d, h1, h2, Bool.not_false, if_true, hmap]
  · intro J hess v pts hne hlen hfail
    have hg : gerarPontos (.pontos pts) 1 = .ok pts := by
      simp only [gerarPontos]
      rw [if_pos]
      simpa using hlen
    simp only [classificar, List.length_cons, List.length_nil, Nat.zero_add,
      hg]
    show convexidade1d J hess [v] pts = .ok "indeterminado"
    have hempty : pts.isEmpty = false := by
      cases pts with
      | nil => exact absurd rfl hne
      | cons a t => simp
    have hnil : pts.filterMap (fun q =>
        evalAt J (hessEntry hess 0 0) [(([v] : List String).getD 0 "",
          q.headD 0)]) = [] := by
      rw [List.filterMap_eq_nil_iff]
      intro q hq
      simpa using hfail q hq
    simp only [convexidade1d, hempty, Bool.not_false, if_true, hnil]
    rfl
  · intro J hess x1 x2 pts1 pts2 p hfail
    have hmap : (pts1 ++ p :: pts2).filterMap (avaliarPonto2d J hess x1 x2) =
        (pts1 ++ pts2).filterMap (avaliarPonto2d J hess x1 x2) := by
      rw [List.filterMap_append, List.filterMap_append, List.filterMap_cons,
        hfail]
    simp only [convexidade2d, List.getD_cons_zero, List.getD_cons_succ, hmap]
  · intro J hess x1 x2 pts hfail
    have hnil : pts.filterMap (avaliarPonto2d J hess x1 x2) = [] := by
      rw [List.filterMap_eq_nil_iff]
      exact hfail
    simp only [convexidade2d, List.getD_cons_zero, List.getD_cons_succ, hnil]
    rfl

/-- Witness for C9: the all-points-failing case at one concrete point whose
evaluation fails through the opaque function. -/
theorem claim_C9_witness :
    classificar (fun _ _ => none) [[.fun_ 0 (.const 0)]] ["x1"]
      (some (.pontos [[3]])) = .ok "indeterminado" :=
  claim_C9.2.1 (fun _ _ => none) [[.fun_ 0 (.const 0)]] "x1" [[3]]
    (by decide) (by decide) (by decide)

/-! ### Claim C10 -/

/-- **C10.**  `KKTChecker` partitions the solution by substring matching on
names: the keys over which stationarity and primal complementarity
quantify contain none of `lambda`, `pi_up`, `pi_dn`, `s`; consequently a
decision variable whose name contains the letter `s` anywhere (here
`custo`) is silently excluded and both checks hold vacuously for it, even
when its stationarity residual is far above the tolerance. -/
theorem claim_C10 :
    (∀ (sol : List (String × ℚ)) (k : String), strContains k "s" = true →
      ¬ ∃ kv ∈ kktVariaveis sol, kv.1 = k) ∧
    (∀ (sol : List (String × ℚ)) (kv : String × ℚ),
      kv ∈ kktVariaveis sol →
      strContains kv.1 "lambda" = false ∧ strContains kv.1 "pi_up" = false ∧
      strContains kv.1 "pi_dn" = false ∧ strContains kv.1 "s" = false) ∧
    (verificarEstacionariedade substr0
        ⟨.pow (.var "custo") 2, [("custo", 5)], 0⟩ = (true, []) ∧
     verificarComplementaridadePrimal substr0
        ⟨.pow (.var "custo") 2, [("custo", 5)], 0⟩ = (true, []) ∧
     (0 : ℚ) < |evalT substr0.ap (envOf [("custo", 5)])
        (deriv (Expr.pow (Expr.var "custo") 2) "custo")|) := by
  refine ⟨?_, ?_, ?_, ?_, ?_⟩
  · rintro sol k hk ⟨kv, hmem, hkk⟩
    have := (List.mem_filter.mp hmem).2
    rw [hkk] at this
    simp only [Bool.not_eq_true', Bool.or_eq_false_iff] at this
    rw [this.2] at hk
    cases hk
  · intro sol kv hmem
    have := (List.mem_filter.mp hmem).2
    simp only [Bool.not_eq_true', Bool.or_eq_false_iff] at this
    exact ⟨this.1.1.1, this.1.1.2, this.1.2, this.2⟩
  · decide
  · decide
  · norm_num [evalT, deriv, envOf, lookupA, substr0]

/-- Witness for C10: the exclusion applied at the concrete solution. -/
theorem claim_C10_witness :
    ¬ ∃ kv ∈ kktVariaveis [("custo", (5 : ℚ))], kv.1 = "custo" :=
  claim_C10.1 [("custo", 5)] "custo" (by decide)

/-! ### Claim C4 -/

/-- A check outcome is either a clean pass or a single-message failure. -/
def resultadoUnico (r : Bool × List String) : Prop :=
  r = (true, []) ∨ ∃ m, r = (false, [m])

theorem resultadoUnico_len {r : Bool × List String} (h : resultadoUnico r) :
    r.2.length ≤ 1 := by
  rcases h with h | ⟨m, h⟩ <;> simp [h]

theorem loopEst_shape (S : Substrate) (l : Expr) (sol : List (String × ℚ))
    (tol : ℚ) (xs : List (String × ℚ)) :
    resultadoUnico (loopEst S l sol tol xs) := by
  induction xs with
  | nil => left; rfl
  | cons kv rest ih =>
    obtain ⟨v, val⟩ := kv
    simp only [loopEst]
    split
    · right; exact ⟨_, rfl⟩
    · exact ih

theorem loopCompPrimal_shape (S : Substrate) (l : Expr)
    (sol : List (String × ℚ)) (tol : ℚ) (xs : List (String × ℚ)) :
    resultadoUnico (loopCompPrimal S l sol tol xs) := by
  induction xs with
  | nil => left; rfl
  | cons kv rest ih =>
    obtain ⟨v, val⟩ := kv
    simp only [loopCompPrimal]
    split
    · right; exact ⟨_, rfl⟩
    · exact ih

theorem loopRestricoes_shape (S : Substrate) (sol : List (String × ℚ))
    (tol : ℚ) (xs : List (String × Expr)) :
    resultadoUnico (loopRestricoes S sol tol xs) := by
  induction xs with
  | nil => left; rfl
  | cons kv rest ih =>
    obtain ⟨m, e⟩ := kv
    simp only [loopRestricoes]
    split
    · split
      · right; exact ⟨_, rfl⟩
      · exact ih
    · split
      · split
        · right; exact ⟨_, rfl⟩
        · exact ih
      · split
        · split
          · right; exact ⟨_, rfl⟩
          · exact ih
        · exact ih

theorem loopCompDual_shape (S : Substrate) (sol : List (String × ℚ))
    (tol : ℚ) (xs : List (String × Expr)) :
    resultadoUnico (loopCompDual S sol tol xs) := by
  induction xs with
  | nil => left; rfl
  | cons kv rest ih =>
    obtain ⟨m, e⟩ := kv
    simp only [loopCompDual]
    split
    · right; exact ⟨_, rfl⟩
    · exact ih

theorem loopDominio_shape (S : Substrate) (sol : List (String × ℚ))
    (tol : ℚ) (xs : List (String × Expr)) :
    resultadoUnico (loopDominio S sol tol xs) := by
  induction xs with
  | nil => left; rfl
  | cons kv rest ih =>
    obtain ⟨m, e⟩ := kv
    simp only [loopDominio]
    split
    · exact ih
    · split
      · right; exact ⟨_, rfl⟩
      · split
        · right; exact ⟨_, rfl⟩
        · exact ih

theorem loopLambda_shape (tol : ℚ) (xs : List (ℕ × ℚ)) :
    resultadoUnico (loopLambda tol xs) := by
  induction xs with
  | nil => left; rfl
  | cons kv rest ih =>
    obtain ⟨i, val⟩ := kv
    simp only [loopLambda]
    split
    · right; exact ⟨_, rfl⟩
    · exact ih

theorem loopPi_shape (tol : ℚ) (nome : String) (xs : List (ℕ × ℚ)) :
    resultadoUnico (loopPi tol nome xs) := by
  induction xs with
  | nil => left; rfl
  | cons kv rest ih =>
    obtain ⟨i, val⟩ := kv
    simp only [loopPi]
    split
    · right; exact ⟨_, rfl⟩
    · split
      · right; exact ⟨_, rfl⟩
      · exact ih

theorem dominioMult_shape (k : KKT) :
    resultadoUnico (verificarDominioMultiplicadores k) := by
  simp only [verificarDominioMultiplicadores]
  split
  · exact loopLambda_shape _ _
  · split
    · exact loopPi_shape _ _ _
    · exact loopPi_shape _ _ _

theorem verificarTodas_log (S : Substrate) (k : KKT) :
    (verificarTodas S k).2 =
      (verificarEstacionariedade S k).2 ++
      (verificarComplementaridadePrimal S k).2 ++
      (verificarSatisfacaoRestricoes S k).2 ++
      (verificarComplementaridadeDual S k).2 ++
      (verificarDominioPrimal S k).2 ++
      (verificarDominioMultiplicadores k).2 ++
      [if (verificarTodas S k).1 then msgSucesso else msgFalha] := rfl

/-- **C4.**  `verificar_todas` evaluates all six checks in their fixed
order — every check contributes its messages to the ordered log even when
an earlier one failed — and returns the conjunction of the six booleans:
(a) the verdict is the `&&` of the six individual checks; (b) the log is
the concatenation of the six checks' messages followed by the verdict
line; (c) the log ends in the success message exactly when all checks
pass; (d) each individual check appends at most its single first
violation (returning immediately on it); (e) when stationarity fails its
violation message is first in the log. -/
theorem claim_C4 (S : Substrate) (k : KKT) :
    (verificarTodas S k).1 =
      ((verificarEstacionariedade S k).1 &&
       (verificarComplementaridadePrimal S k).1 &&
       (verificarSatisfacaoRestricoes S k).1 &&
       (verificarComplementaridadeDual S k).1 &&
       (verificarDominioPrimal S k).1 &&
       (verificarDominioMultiplicadores k).1) ∧
    (verificarTodas S k).2 =
      ((verificarEstacionariedade S k).2 ++
       (verificarComplementaridadePrimal S k).2 ++
       (verificarSatisfacaoRestricoes S k).2 ++
       (verificarComplementaridadeDual S k).2 ++
       (verificarDominioPrimal S k).2 ++
       (verificarDominioMultiplicadores k).2 ++
       [if (verificarTodas S k).1 then msgSucesso else msgFalha]) ∧
    ((verificarTodas S k).2.getLast? = some msgSucesso ↔
      (verificarTodas S k).1 = true) ∧
    ((verificarEstacionariedade S k).2.length ≤ 1 ∧
     (verificarComplementaridadePrimal S k).2.length ≤ 1 ∧
     (verificarSatisfacaoRestricoes S k).2.length ≤ 1 ∧
     (verificarComplementaridadeDual S k).2.length ≤ 1 ∧
     (verificarDominioPrimal S k).2.length ≤ 1 ∧
     (verificarDominioMultiplicadores k).2.length ≤ 1) ∧
    ((verificarEstacionariedade S k).1 = false →
      (verificarTodas S k).2.head? = (verificarEstacionariedade S k).2.head?)
    := by
  refine ⟨rfl, verificarTodas_log S k, ?_, ?_, ?_⟩
  · rw [verificarTodas_log, List.getLast?_concat]
    cases h : (verificarTodas S k).1 with
    | true => simp
    | false =>
      simp only [if_false, Bool.false_eq_true, iff_false]
      intro hc
      have : msgFalha = msgSucesso := Option.some_inj.mp hc
      exact absurd this (by decide)
  · exact ⟨resultadoUnico_len (loopEst_shape S k.lagrangeana k.solucao k.tol
        (kktVariaveis k.solucao)),
      resultadoUnico_len (loopCompPrimal_shape S k.lagrangeana k.solucao
        k.tol (kktVariaveis k.solucao)),
      resultadoUnico_len (loopRestricoes_shape S k.solucao k.tol
        (extrairRestricoes k.lagrangeana)),
      resultadoUnico_len (loopCompDual_shape S k.solucao k.tol
        (extrairRestricoes k.lagrangeana)),
      resultadoUnico_len (loopDominio_shape S k.solucao k.tol
        (extrairRestricoes k.lagrangeana)),
      resultadoUnico_len (dominioMult_shape k)⟩
  · intro h
    rcases loopEst_shape S k.lagrangeana k.solucao k.tol
        (kktVariaveis k.solucao) with hs | ⟨m, hs⟩
    · exfalso
      have ht : (verificarEstacionariedade S k).1 = true := by
        rw [verificarEstacionariedade, hs]
      rw [h] at ht
      cases ht
    · have h2 : (verificarEstacionariedade S k).2 = [m] := by
        rw [verificarEstacionariedade, hs]
      rw [verificarTodas_log, h2]
      simp [List.singleton_append, List.cons_append]

/-- Witness for C4: the stationarity-first property at a checker whose
stationarity genuinely fails (`L = x²` at `x = 5` with zero tolerance). -/
theorem claim_C4_witness :
    (verificarTodas substr0 ⟨.pow (.var "x") 2, [("x", 5)], 0⟩).2.head? =
      (verificarEstacionariedade substr0
        ⟨.pow (.var "x") 2, [("x", 5)], 0⟩).2.head? := by
  refine (claim_C4 substr0 ⟨.pow (.var "x") 2, [("x", 5)], 0⟩).2.2.2.2 ?_
  norm_num [verificarEstacionariedade, kktVariaveis, strContains,
    charsContain, charsLeading, loopEst, deriv, evalT, envOf, lookupA,
    substr0]

/-! ### Claim C5 -/

/-- **C5.**  Whenever the Hessian evaluated at the current Newton iterate
has rank strictly less than the number of variables and the convergence
test has not fired, the loop raises the fatal singular-Hessian error at
once — for any remaining iteration budget, at any iterate: no step is
computed and no update from a rank-deficient Hessian ever happens. -/
theorem claim_C5 (S : Substrate) (grad : List Expr) (hess : List (List Expr))
    (vars' : List String) (tol : ℚ) (cl : Bool) (fuel it : ℕ)
    (xk : List (String × ℚ))
    (hnc : normLt (grad.map (evalT S.ap (envOf xk))) tol = false)
    (hrank : rankQ (hess.map (fun row => row.map (evalT S.ap (envOf xk)))) <
      vars'.length) :
    newtonLoop S grad hess vars' tol cl (fuel + 1) it xk =
      .error .hessSingular := by
  simp only [newtonLoop, hnc, Bool.false_eq_true, if_false, if_pos hrank]

/-- Witness for C5: a non-converged iterate (gradient `(2, 0)`, zero
tolerance) with a rank-1 evaluated Hessian on two variables. -/
theorem claim_C5_witness :
    newtonLoop substr0 [.const 2, .const 0]
      [[.const 2, .const 0], [.const 0, .const 0]] ["x1", "x2"] 0 false
      1 0 [] = .error .hessSingular := by
  refine claim_C5 substr0 [.const 2, .const 0]
    [[.const 2, .const 0], [.const 0, .const 0]] ["x1", "x2"] 0 false
    0 0 [] ?_ ?_
  · norm_num [normLt, evalT]
  · norm_num [rankQ, evalT, List.findIdx?_cons, dropCol]

/-! ### Claim C6 -/

/-- Boolean transcription of a run in which each of the next `fuel`
iterates fails the tolerance test and has a full-rank, invertible Hessian,
so the Newton `for` loop exhausts its budget. -/
def noConvergeB (S : Substrate) (grad : List Expr) (hess : List (List Expr))
    (vars' : List String) (tol : ℚ) : ℕ → List (String × ℚ) → Bool
  | 0, _ => true
  | fuel + 1, xk =>
    let gradEval := grad.map (evalT S.ap (envOf xk))
    let hessEval := hess.map (fun row => row.map (evalT S.ap (envOf xk)))
    !normLt gradEval tol &&
      (!decide (rankQ hessEval < vars'.length) &&
        match matInv hessEval with
        | none => false
        | some hin =>
          noConvergeB S grad hess vars' tol fuel
            (atualizarIterado vars'
              ((matVec hin gradEval).map (fun q => -q)) xk))

theorem newtonLoop_noConverge (S : Substrate) (grad : List Expr)
    (hess : List (List Expr)) (vars' : List String) (tol : ℚ) (cl : Bool) :
    ∀ (fuel it : ℕ) (xk : List (String × ℚ)),
      noConvergeB S grad hess vars' tol fuel xk = true → 1 ≤ it + fuel →
      newtonLoop S grad hess vars' tol cl fuel it xk =
        .error (.naoConvergiu (it + fuel)) := by
  intro fuel
  induction fuel with
  | zero =>
    intro it xk _ hit
    have hne : ¬(it = 0) := by omega
    rw [Nat.add_zero]
    simp only [newtonLoop, hne, if_false]
  | succ n ih =>
    intro it xk hnc hit
    simp only [noConvergeB, Bool.and_eq_true, Bool.not_eq_true',
      decide_eq_false_iff_not] at hnc
    obtain ⟨h1, h2, h3⟩ := hnc
    simp only [newtonLoop, h1, Bool.false_eq_true, if_false, if_neg h2]
    rcases hm : matInv (hess.map (fun row =>
        row.map (evalT S.ap (envOf xk)))) with _ | hin
    · rw [hm] at h3
      cases h3
    · rw [hm] at h3
      rw [hm]
      have heq : it + (n + 1) = (it + 1) + n := by omega
      rw [heq]
      exact ih (it + 1) _ h3 (by omega)

/-- **C6.**  A nonlinear run in which the gradient norm never falls below
the tolerance within the `max_iter` budget (each iterate having a
full-rank, invertible Hessian) raises the non-convergence error carrying
the iteration count `max_iter`, and returns no solution record (the
`Except.error` constructor carries no record). -/
theorem claim_C6 (S : Substrate) (grad : List Expr) (hess : List (List Expr))
    (vars' : List String) (tol : ℚ) (maxIter : ℕ) (x0 : X0) (mode : Mode)
    (flag : Bool) (hiter : 1 ≤ maxIter)
    (hnc : noConvergeB S grad hess vars' tol maxIter
      (chuteValores x0 vars') = true) :
    resolverNonlinearNewton S grad hess vars' tol maxIter x0 mode flag =
      .error (.naoConvergiu maxIter) := by
  have h := newtonLoop_noConverge S grad hess vars' tol
    ((mode = Mode.auto) && flag) maxIter 0 (chuteValores x0 vars') hnc
    (by omega)
  rw [Nat.zero_add] at h
  exact h

/-- Witness for C6: a constant gradient `L'` that can never meet a zero
tolerance, with an invertible constant Hessian, exhausting a one-iteration
budget. -/
theorem claim_C6_witness :
    resolverNonlinearNewton substr0 [.const 1] [[.const 1]] ["x1"] 0 1
      (.escalar 0) .min false = .error (.naoConvergiu 1) := by
  refine claim_C6 substr0 [.const 1] [[.const 1]] ["x1"] 0 1 (.escalar 0)
    .min false (by omega) ?_
  norm_num [noConvergeB, normLt, evalT, envOf, lookupA, rankQ, matInv,
    detL, List.findIdx?_cons, dropCol, chuteValores, prepararChute,
    preencher, passoPreencher, chuteBase, updA]

/-! ### Claim C2 -/

/-- **C2.**  (i) When every component of the derived gradient admits a
polynomial decomposition of total degree at most 1 over the full variable
list, `executar()` takes the linear path: the linearity test passes and the
returned record is exactly the closed-form solve of `A x = b` assembled
from the gradient equations by matrix inversion; when `A` is invertible the
record has `iteracoes = 1` and the solution `A⁻¹ b`.  (ii) A gradient
component that fails polynomial decomposition makes the linearity test
`False` and the run is dispatched to the Newton path — the failure raises
no error.  Both parts require the convexity diagnosis (which runs first)
to return rather than raise. -/
theorem claim_C2 :
    (∀ (S : Substrate) (s : SolverState) (p : Bool × List String),
      diagnosticoConvexidade S s.model (hessianaDe s.model) s.intervalo
        s.classificarLocalmente = .ok p →
      (∀ e ∈ gradienteDe s.model, ∃ d : ℕ, polyDegree e = some d ∧ d ≤ 1) →
      sistemaLinear (gradienteDe s.model) = true ∧
      (executarS S s).res = resolverLinear S.ap s.model.objective
        (gradienteDe s.model) s.model.vars.all_symbols ∧
      (∀ mi, matInv (linearEqToMatrix (gradienteDe s.model)
          s.model.vars.all_symbols).1 = some mi →
        (executarS S s).res = .ok
          { solucao := s.model.vars.all_symbols.zip (matVec mi
              (linearEqToMatrix (gradienteDe s.model)
                s.model.vars.all_symbols).2),
            fob := some (evalT S.ap (envOf (s.model.vars.all_symbols.zip
              (matVec mi (linearEqToMatrix (gradienteDe s.model)
                s.model.vars.all_symbols).2))) s.model.objective),
            iteracoes := 1 })) ∧
    (∀ (S : Substrate) (s : SolverState) (p : Bool × List String),
      diagnosticoConvexidade S s.model (hessianaDe s.model) s.intervalo
        s.classificarLocalmente = .ok p →
      (∃ e ∈ gradienteDe s.model, polyDegree e = none) →
      sistemaLinear (gradienteDe s.model) = false ∧
      (executarS S s).res = (resolverNonlinearNewton S (gradienteDe s.model)
        (hessianaDe s.model) s.model.vars.all_symbols s.tol s.maxIter s.x0
        s.model.mode p.1).map Prod.fst) := by
  constructor
  · intro S s p hdiag hdeg
    have hlin : sistemaLinear (gradienteDe s.model) = true := by
      unfold sistemaLinear
      rw [List.all_eq_true]
      intro e he
      rcases hdeg e he with ⟨d, hd, hle⟩
      rw [hd]
      simpa using hle
    have hres : (executarS S s).res = resolverLinear S.ap s.model.objective
        (gradienteDe s.model) s.model.vars.all_symbols := by
      simp only [executarS, hdiag, hlin, if_true]
    refine ⟨hlin, hres, fun mi hmi => ?_⟩
    rw [hres]
    simp only [resolverLinear, hmi]
  · intro S s p hdiag ⟨e, he, hnone⟩
    have hlin : sistemaLinear (gradienteDe s.model) = false := by
      by_contra hc
      have : sistemaLinear (gradienteDe s.model) = true := by
        cases h : sistemaLinear (gradienteDe s.model) with
        | true => rfl
        | false => exact absurd h hc
      rw [sistemaLinear, List.all_eq_true] at this
      have := this e he
      rw [hnone] at this
      cases this
    refine ⟨hlin, ?_⟩
    simp only [executarS, hdiag, hlin, Bool.false_eq_true, if_false]
    cases hr : resolverNonlinearNewton S (gradienteDe s.model)
        (hessianaDe s.model) s.model.vars.all_symbols s.tol s.maxIter s.x0
        s.model.mode p.1 with
    | error err => simp [Except.map]
    | ok rl => simp [Except.map]

/-- Concrete linear model for the C2 witness: minimise `x1² - 2 x1`,
unconstrained. -/
def modeloLinW : BuiltModel :=
  { objective := .sub (.pow (.var "x1") 2) (.mul (.const 2) (.var "x1")),
    mode := .min,
    vars := { x := ["x1"], lmd := [], pi_up := [], pi_dn := [], s := [] },
    constraints := ⟨[], [], []⟩ }

/-- Concrete solver state for the C2 witness. -/
def estadoLinW : SolverState :=
  { model := modeloLinW, passo := 1 / 10, tol := 1 / 1000000, maxIter := 20,
    x0 := .outro, intervalo := none, classificarLocalmente := false,
    lagrangian := none, gradiente := none, hessiana := none,
    variaveis := none, historico := none }

/-- Witness for C2: the affine-gradient part at the concrete model. -/
theorem claim_C2_witness :
    (executarS substr0 estadoLinW).res = resolverLinear substr0.ap
      modeloLinW.objective (gradienteDe modeloLinW) ["x1"] :=
  ((claim_C2.1 substr0 estadoLinW
    (false, ["[Aviso] Análise de convexidade não realizada (intervalo não fornecido)."])
    rfl
    (by
      intro e he
      rw [show gradienteDe estadoLinW.model =
        [deriv (lagrangeanaDe modeloLinW) "x1"] from rfl] at he
      simp only [List.mem_singleton] at he
      subst he
      exact ⟨1, rfl, by omega⟩)).2.1)

/-! ### Claim C7 -/

theorem diag_error_flag (S : Substrate) (m : BuiltModel)
    (hess : List (List Expr)) (i : Option Dominio) (f1 f2 : Bool)
    (e : String)
    (h : diagnosticoConvexidade S m hess i f1 = .error e) :
    diagnosticoConvexidade S m hess i f2 = .error e := by
  cases i with
  | none => cases h
  | some d =>
    simp only [diagnosticoConvexidade] at h ⊢
    cases hc : classificar S.apN hess m.vars.all_symbols (some d) with
    | error e' =>
      simp only [hc] at h ⊢
      exact h
    | ok tipo =>
      simp only [hc] at h
      exact Except.noConfusion h

theorem diagFlag_idem (tipo : String) (f : Bool) :
    diagFlag tipo (diagFlag tipo f) = diagFlag tipo f := by
  by_cases h : tipo = "nem convexa nem côncava" <;> simp [diagFlag, h]

theorem diag_flag_idem (S : Substrate) (m : BuiltModel)
    (hess : List (List Expr)) (i : Option Dominio) (f : Bool)
    (p : Bool × List String)
    (h : diagnosticoConvexidade S m hess i f = .ok p) :
    diagnosticoConvexidade S m hess i p.1 = .ok p := by
  cases i with
  | none =>
    simp only [diagnosticoConvexidade] at h ⊢
    injection h with h2
    subst h2
    rfl
  | some d =>
    simp only [diagnosticoConvexidade] at h ⊢
    cases hc : classificar S.apN hess m.vars.all_symbols (some d) with
    | error e' =>
      simp only [hc] at h
      exact Except.noConfusion h
    | ok tipo =>
      simp only [hc] at h ⊢
      injection h with h2
      subst h2
      rw [diagFlag_idem]

/-- **C7.**  `executar()` has no side effects beyond the returned output:
the caller-supplied `x0` is left untouched, and a second consecutive
`executar()` call on the state the first call left behind produces exactly
the same state, the same diagnostic output and the same result — every
piece of per-run state (including the local-classification flag written by
the convexity diagnosis) is effectively re-derived, never carried over
into different behaviour.  Distinct solver instances are distinct states
in this embedding, so no state is shared between them at all. -/
theorem claim_C7 (S : Substrate) (s : SolverState) :
    (executarS S s).st.x0 = s.x0 ∧
    executarS S (executarS S s).st = executarS S s := by
  constructor
  · simp only [executarS]
    split
    · rfl
    · split
      · rfl
      · split <;> rfl
  · cases hd : diagnosticoConvexidade S s.model (hessianaDe s.model)
        s.intervalo s.classificarLocalmente with
    | error e =>
      have h1 : executarS S s =
          ⟨escreverDerivados s, [], .error (.dominioInvalido e)⟩ := by
        simp only [executarS, hd]
      rw [h1]
      simp only [executarS, escreverDerivados, hd]
    | ok p =>
      have hidem := diag_flag_idem S s.model (hessianaDe s.model)
        s.intervalo s.classificarLocalmente p hd
      have h1 : (executarS S s).st =
          { escreverDerivados s with classificarLocalmente := p.1 } := by
        simp only [executarS, hd]
        split
        · rfl
        · split <;> rfl
      rw [h1]
      simp only [executarS, escreverDerivados, hd, hidem]

end PowerPnl
